import Mathlib

/-!
Verification of the paperless-annotations core: the annotation storage and
encoding subsystem (`plannotations/annostorage.py`), the annotator
orchestration layer (`plannotations/annotations.py`) and the document link
synchronization engine (`plannotations/auto_linking.py`), shallowly embedded
in Lean.

Conventions of the embedding:
* JSON-representable Python values are modelled by `JVal` (numbers are
  modelled as integers; float-valued JSON numerals are outside the model).
* The Python standard library codecs used by the serializers (`json.dumps`
  / `json.loads`, `str.encode` / `bytes.decode`, `gzip.compress` /
  `gzip.decompress`) are external library code, not code of this
  repository; they are modelled as parameters (the `Codecs` structure),
  and theorems that depend on their documented behaviour take that
  behaviour as explicit hypotheses.  `base64.b85encode` / `base64.b85decode`
  are modelled concretely (`b85encode` / `b85decode` below) following the
  CPython implementation.
* Exceptions are modelled with `Except`; a Python function that may either
  return or raise is modelled as returning `Except AppErr _`.
* The pydantic model `Annotation` (with `extra = "allow"`) is modelled by
  the structure `Anno`; its extension fields are the `extra` association
  list.  (The Lean name avoids the source's class name for lexical
  reasons only.)
-/

namespace Plannotations

/-- JSON-representable values: the Python objects handled by `json.dumps` /
`json.loads` and stored in pydantic extra fields.  Numbers are modelled as
integers. -/
inductive JVal where
  | null
  | bool (b : Bool)
  | num (n : Int)
  | str (s : String)
  | arr (xs : List JVal)
  | obj (fields : List (String × JVal))

mutual

/-- Structural equality of `JVal`, modelling Python `==` on
JSON-representable values. -/
def jeq : JVal → JVal → Bool
  | .null, .null => true
  | .bool a, .bool b => a == b
  | .num a, .num b => a == b
  | .str a, .str b => a == b
  | .arr xs, .arr ys => jeqList xs ys
  | .obj fs, .obj gs => jeqObj fs gs
  | _, _ => false

/-- Pointwise `jeq` on lists. -/
def jeqList : List JVal → List JVal → Bool
  | [], [] => true
  | x :: xs, y :: ys => jeq x y && jeqList xs ys
  | _, _ => false

/-- Pointwise `jeq` on association lists. -/
def jeqObj : List (String × JVal) → List (String × JVal) → Bool
  | [], [] => true
  | (k, v) :: fs, (l, w) :: gs => k == l && jeq v w && jeqObj fs gs
  | _, _ => false

end

/-- The `Annotation` pydantic model of `annostorage.py` (lines 17-27):
fixed fields `created`, `author` (default `""`), `type`, `pageIndex`,
`db_id` (default `None`), `contents` (default `None`), and, because the
model is configured with `extra = "allow"`, arbitrary further named fields
kept in `extra`. -/
structure Anno where
  created : String
  author : String := ""
  type : Int
  pageIndex : Int
  db_id : Option Int := none
  contents : Option String := none
  extra : List (String × JVal) := []

/-- The names of the fixed (declared) fields of the `Annotation` model. -/
def fixedKeys : List String :=
  ["created", "author", "type", "pageIndex", "db_id", "contents"]

/-- A real pydantic object cannot carry an extension field whose name is a
declared field name, and extension names are pairwise distinct (they live
in a Python dict). -/
def Anno.wf (a : Anno) : Prop :=
  (a.extra.map Prod.fst).Nodup ∧ ∀ k ∈ a.extra.map Prod.fst, k ∉ fixedKeys

/-- Pydantic `model_dump()` on the `Annotation` model: the declared fields
in declaration order followed by the extension fields. -/
def Anno.modelDump (a : Anno) : List (String × JVal) :=
  [("created", .str a.created),
   ("author", .str a.author),
   ("type", .num a.type),
   ("pageIndex", .num a.pageIndex),
   ("db_id", match a.db_id with | none => .null | some n => .num n),
   ("contents", match a.contents with | none => .null | some s => .str s)]
  ++ a.extra

/-- Error kinds of the embedded code.  `unknownSerializer` carries the
requested name and the list of known serializer names (the `ValueError`
message of `AnnoSerializer.get_serializer_by_name` enumerates them);
`reservedDelimiter` is the `ValueError` of `_anno_to_note_content`;
`indexError` models `list[0]` on an empty list; `validationError` models a
pydantic `ValidationError`; `deserializeError` models an exception raised
inside `AnnoSerializer.deserialize`; `attributeError` models access to a
missing pydantic extra attribute; `missingDbId` and `notFound` are the
`ValueError`s of `update_annotation`; `apiError` models
`PaperlessAPIError`; `multipleObjects` models Django's
`MultipleObjectsReturned`. -/
inductive AppErr where
  | unknownSerializer (nm : String) (known : List String)
  | reservedDelimiter
  | indexError
  | validationError
  | deserializeError
  | attributeError
  | missingDbId
  | notFound (db_id : Int)
  | apiError
  | multipleObjects
  deriving DecidableEq

/-- First lookup of a key in an association list (a Python dict read). -/
def jlookup (fs : List (String × JVal)) (k : String) : Option JVal :=
  match fs with
  | [] => none
  | (l, v) :: rest => if l = k then some v else jlookup rest k

/-- Read an optional `str`-typed pydantic field from a field dictionary:
absent is allowed, any non-string present value fails validation. -/
def getStrField (fs : List (String × JVal)) (k : String) :
    Except AppErr (Option String) :=
  match jlookup fs k with
  | none => .ok none
  | some (.str s) => .ok (some s)
  | some _ => .error .validationError

/-- Read an optional `int`-typed pydantic field from a field dictionary. -/
def getIntField (fs : List (String × JVal)) (k : String) :
    Except AppErr (Option Int) :=
  match jlookup fs k with
  | none => .ok none
  | some (.num n) => .ok (some n)
  | some _ => .error .validationError

/-- Read an `Optional[int]` pydantic field: absent and JSON null both give
`None`. -/
def getOptIntField (fs : List (String × JVal)) (k : String) :
    Except AppErr (Option Int) :=
  match jlookup fs k with
  | none => .ok none
  | some .null => .ok none
  | some (.num n) => .ok (some n)
  | some _ => .error .validationError

/-- Read an `Optional[str]` pydantic field: absent and JSON null both give
`None`. -/
def getOptStrField (fs : List (String × JVal)) (k : String) :
    Except AppErr (Option String) :=
  match jlookup fs k with
  | none => .ok none
  | some .null => .ok none
  | some (.str s) => .ok (some s)
  | some _ => .error .validationError

/-- Pydantic validation `Annotation(**d)` on a field dictionary: the
declared fields are read (with their declared types and defaults:
`created`, `type` and `pageIndex` required, `author` defaulting to `""`,
`db_id` and `contents` defaulting to `None`), and every remaining entry
becomes an extension field (`extra = "allow"`).  Type coercions of
pydantic's lax mode that cannot occur on round-tripped data (e.g. numeric
strings for `int` fields) are not modelled: a field of the wrong shape is
a `validationError`. -/
def annoFromDict (fs : List (String × JVal)) : Except AppErr Anno := do
  let some created ← getStrField fs "created" | .error .validationError
  let author := (← getStrField fs "author").getD ""
  let some ty ← getIntField fs "type" | .error .validationError
  let some pageIndex ← getIntField fs "pageIndex" | .error .validationError
  let db ← getOptIntField fs "db_id"
  let contents ← getOptStrField fs "contents"
  .ok { created := created, author := author, type := ty, pageIndex := pageIndex,
        db_id := db, contents := contents,
        extra := fs.filter (fun kv => !(fixedKeys.contains kv.1)) }

/-- The Python standard library codecs used by the serializers, as
parameters: `dumps2` is `json.dumps(obj, indent=2)`, `dumps` is
`json.dumps(obj)`, `loads` is `json.loads` (an `error` models a raised
`JSONDecodeError`), `strEncode` / `strDecode` are UTF-8 `str.encode()` /
`bytes.decode()` (bytes as naturals), `gzipCompress` / `gzipDecompress`
are `gzip.compress` / `gzip.decompress`. -/
structure Codecs where
  dumps2 : JVal → String
  dumps : JVal → String
  loads : String → Except Unit JVal
  strEncode : String → List Nat
  strDecode : List Nat → Option String
  gzipCompress : List Nat → List Nat
  gzipDecompress : List Nat → Except Unit (List Nat)

/-- The base85 alphabet of `base64.b85encode` (RFC 1924). -/
def b85alphabet : List Char :=
  "0123456789ABCDEFGHIJKLMNOPQRSTUVWXYZabcdefghijklmnopqrstuvwxyz!#$%&()*+-;<=>?@^_`\x7b|\x7d~".data

/-- The alphabet character of a base85 digit. -/
def b85char (d : Nat) : Char := b85alphabet.getD d '0'

/-- The base85 digit of an alphabet character, `none` for a character
outside the alphabet (a `ValueError` in `base64.b85decode`). -/
def b85val (ch : Char) : Option Nat := b85alphabet.findIdx? (· == ch)

/-- The 32-bit big-endian word of a 4-byte group (`struct` pack `!I`). -/
def bytesWord : List Nat → Nat
  | [] => 0
  | b :: rest => b * 256 ^ rest.length + bytesWord rest

/-- The 4 big-endian bytes of a 32-bit word. -/
def wordBytes (w : Nat) : List Nat :=
  [w / 2 ^ 24 % 256, w / 2 ^ 16 % 256, w / 2 ^ 8 % 256, w % 256]

/-- The 5 base85 digits of a 32-bit word, most significant first. -/
def b85encWord (w : Nat) : List Char :=
  [b85char (w / 85 ^ 4 % 85), b85char (w / 85 ^ 3 % 85),
   b85char (w / 85 ^ 2 % 85), b85char (w / 85 % 85), b85char (w % 85)]

/-- `base64.b85encode` on a byte sequence, following CPython's `_85encode`:
the input is padded with zero bytes to a multiple of 4, each 4-byte group
becomes 5 base85 characters, and when the final group was padded with `p`
bytes the final 5 characters are truncated by `p` (the 4-byte chunking is
written out as pattern cases on the leading group). -/
def b85encode : List Nat → List Char
  | [] => []
  | [a] => (b85encWord (bytesWord [a, 0, 0, 0])).take 2
  | [a, b] => (b85encWord (bytesWord [a, b, 0, 0])).take 3
  | [a, b, c] => (b85encWord (bytesWord [a, b, c, 0])).take 4
  | a :: b :: c :: d :: rest => b85encWord (bytesWord [a, b, c, d]) ++ b85encode rest

/-- The value of 5 base85 characters (`none` on a character outside the
alphabet). -/
def b85decWord (cs : List Char) : Option Nat :=
  match cs with
  | [] => some 0
  | c :: rest => do
    let d ← b85val c
    let r ← b85decWord rest
    pure (d * 85 ^ rest.length + r)

/-- One 5-character base85 group decoded to its bytes, keeping the first
`keep` of the 4 bytes: a group above `2 ^ 32 - 1` or with a character
outside the alphabet raises. -/
def b85decChunk (cs : List Char) (keep : Nat) : Except Unit (List Nat) :=
  match b85decWord cs with
  | none => .error ()
  | some w => if w < 2 ^ 32 then .ok ((wordBytes w).take keep) else .error ()

/-- `base64.b85decode`, following CPython: the input is padded with `~`
(digit 84) to a multiple of 5, each 5-character group is decoded to a
32-bit big-endian word (groups above `2 ^ 32 - 1` and characters outside
the alphabet raise), and when the final group was padded with `p`
characters the final 4 bytes are truncated by `p` (the 5-character
chunking is written out as pattern cases on the leading group). -/
def b85decode : List Char → Except Unit (List Nat)
  | [] => .ok []
  | [c1] => b85decChunk [c1, '~', '~', '~', '~'] 0
  | [c1, c2] => b85decChunk [c1, c2, '~', '~', '~'] 1
  | [c1, c2, c3] => b85decChunk [c1, c2, c3, '~', '~'] 2
  | [c1, c2, c3, c4] => b85decChunk [c1, c2, c3, c4, '~'] 3
  | c1 :: c2 :: c3 :: c4 :: c5 :: rest =>
    match b85decChunk [c1, c2, c3, c4, c5] 4 with
    | .error e => .error e
    | .ok bs =>
      match b85decode rest with
      | .ok bs2 => .ok (bs ++ bs2)
      | .error e => .error e

/-- A registered serializer: a named codec between field dictionaries and
strings (the `AnnoSerializer` subclasses of `annostorage.py`). -/
structure AnnoSerializer where
  name : String
  serialize : JVal → String
  deserialize : String → Except Unit JVal

/-- The `JsonSerializer` (`NAME = "ji2"`): `json.dumps(obj, indent=2)` /
`json.loads(s)`. -/
def jsonSerializer (c : Codecs) : AnnoSerializer :=
  { name := "ji2", serialize := c.dumps2, deserialize := c.loads }

/-- The `Base85GzipJSONSerializer` (`NAME = "85gj"`):
`base64.b85encode(gzip.compress(json.dumps(obj).encode())).decode()` /
`json.loads(gzip.decompress(base64.b85decode(s.encode())).decode())`. -/
def base85GzipJSONSerializer (c : Codecs) : AnnoSerializer :=
  { name := "85gj"
    serialize := fun v => String.mk (b85encode (c.gzipCompress (c.strEncode (c.dumps v))))
    deserialize := fun s => do
      let bs ← b85decode s.data
      let bs2 ← c.gzipDecompress bs
      match c.strDecode bs2 with
      | none => .error ()
      | some t => c.loads t }

/-- The registered serializers, in `__subclasses__()` order (the order the
two subclasses are defined in `annostorage.py`). -/
def registeredSerializers (c : Codecs) : List AnnoSerializer :=
  [base85GzipJSONSerializer c, jsonSerializer c]

/-- The names of the registered serializers. -/
def registeredNames (c : Codecs) : List String :=
  (registeredSerializers c).map (fun s => s.name)

/-- `AnnoSerializer.get_serializer_by_name`: linear search of the
registered serializers by `NAME`; an unknown name raises a `ValueError`
whose message enumerates the known names. -/
def getSerializerByName (c : Codecs) (nm : String) : Except AppErr AnnoSerializer :=
  match (registeredSerializers c).find? (fun s => s.name == nm) with
  | some s => .ok s
  | none => .error (.unknownSerializer nm (registeredNames c))

/-- Whether `sub` occurs in `l` starting at offset `i + acc` for some
`i`; returns the first such absolute offset (`str.find`, which returns
`-1` when absent, is modelled with `none` for `-1`). -/
def findSubAux (sub : List Char) : List Char → Nat → Option Nat
  | [], i => if sub.isEmpty then some i else none
  | l@(_ :: rest), i => if sub.isPrefixOf l then some i else findSubAux sub rest (i + 1)

/-- Python `hay.find(sub)`: offset of the first occurrence, `none` for
`-1`. -/
def pyFind (hay sub : String) : Option Nat :=
  findSubAux sub.data hay.data 0

/-- Python `sub in hay` on strings: substring containment. -/
def pyContains (hay sub : String) : Bool :=
  (pyFind hay sub).isSome

/-- Python slice `s[a:b]` (with `0 ≤ a`, `0 ≤ b`). -/
def pySlice (s : String) (a b : Nat) : String :=
  String.mk ((s.data.take b).drop a)

/-- Python `str.isspace` / the characters stripped by `str.strip()`:
ASCII whitespace, the C1 and Unicode space separators. -/
def pySpace (ch : Char) : Bool :=
  let n := ch.toNat
  (9 ≤ n && n ≤ 13) || n == 32 || (28 ≤ n && n ≤ 31) || n == 0x85 || n == 0xa0 ||
    n == 0x1680 || (0x2000 ≤ n && n ≤ 0x200a) || n == 0x2028 || n == 0x2029 ||
    n == 0x202f || n == 0x205f || n == 0x3000

/-- Python `str.strip()`: remove leading and trailing whitespace. -/
def pyStrip (s : String) : String :=
  String.mk (((s.data.dropWhile pySpace).reverse.dropWhile pySpace).reverse)

/-- The line-boundary characters of Python `str.splitlines` (besides the
`"\r\n"` pair). -/
def pyLineBreak (ch : Char) : Bool :=
  let n := ch.toNat
  n == 10 || n == 13 || n == 11 || n == 12 || n == 28 || n == 29 || n == 30 ||
    n == 0x85 || n == 0x2028 || n == 0x2029

/-- Collapse each `"\r\n"` pair to a single `"\n"`, so that the pair
counts as one line boundary. -/
def normalizeCRLF : List Char → List Char
  | [] => []
  | '\r' :: '\n' :: rest => '\n' :: normalizeCRLF rest
  | c :: rest => c :: normalizeCRLF rest

/-- Split at the single-character line boundaries, keeping a (possibly
empty) segment after the final boundary. -/
def splitAtBreaks : List Char → List (List Char)
  | [] => [[]]
  | c :: rest =>
    if pyLineBreak c then [] :: splitAtBreaks rest
    else
      match splitAtBreaks rest with
      | l :: ls => (c :: l) :: ls
      | [] => [[c]]

/-- Python `s.splitlines()`: split at line boundaries, treating `"\r\n"`
as one boundary, with no trailing empty line. -/
def pySplitlines (s : String) : List (List Char) :=
  if s.data.isEmpty then []
  else
    let parts := splitAtBreaks (normalizeCRLF s.data)
    if parts.getLast? == some [] then parts.dropLast else parts

/-- Python `"\n".join(lines)`. -/
def joinNL (lines : List (List Char)) : String :=
  String.mk (List.intercalate ['\n'] lines)

/-- `PaperlessNotesStorage.ANNOTATION_CONTENT_BEGIN`. -/
def CONTENT_BEGIN : String := "------------ DATA BEGIN ------------"

/-- `PaperlessNotesStorage.ANNOTATION_CONTENT_END`. -/
def CONTENT_END : String := "------------ DATA END ------------"

/-- `PaperlessNotesStorage._anno_to_note_content`: serialize the
annotation's `model_dump()` with the configured default serializer and
append a newline; render the header (the header template is an external
resource, so the rendering is the parameter `rh`); raise a `ValueError` if
the header or the serialized payload contains either content delimiter;
otherwise concatenate header, BEGIN delimiter, serializer name, payload
and END delimiter. -/
def annoToNoteContent (ser : AnnoSerializer) (rh : Anno → String) (a : Anno) :
    Except AppErr String :=
  let serialized := ser.serialize (.obj a.modelDump) ++ "\n"
  let header := rh a
  if pyContains header CONTENT_BEGIN || pyContains header CONTENT_END then
    .error .reservedDelimiter
  else if pyContains serialized CONTENT_BEGIN || pyContains serialized CONTENT_END then
    .error .reservedDelimiter
  else
    .ok (header ++ "\n" ++ CONTENT_BEGIN ++ "\n" ++ ser.name ++ "\n" ++ serialized
      ++ CONTENT_END)

/-- The region of a note between the two content delimiters, stripped
(`none` when either delimiter is absent): the `data_area` local of
`_note_content_to_anno`. -/
def noteDataArea (note_content : String) : Option String :=
  match pyFind note_content CONTENT_BEGIN, pyFind note_content CONTENT_END with
  | some begin_idx, some end_idx =>
    some (pyStrip (pySlice note_content (begin_idx + CONTENT_BEGIN.length) end_idx))
  | _, _ => none

/-- The serializer-name line of a note: the stripped first line of the
data area (`none` when a delimiter is absent or the data area has no
lines). -/
def noteSerializerName (note_content : String) : Option String :=
  match noteDataArea note_content with
  | none => none
  | some area =>
    match pySplitlines area with
    | [] => none
    | first :: _ => some (pyStrip (String.mk first))

/-- `PaperlessNotesStorage._note_content_to_anno`: find both delimiters
(absent ⇒ `None`, i.e. not an annotation record); strip the region
between them; its first line, stripped, is the serializer name (empty ⇒
`None`); resolve the serializer (unknown ⇒ the `ValueError` of
`get_serializer_by_name`); deserialize the remaining lines re-joined with
`"\n"` (a result of JSON null ⇒ `None`); validate the resulting field
dictionary as an `Annotation`. -/
def noteContentToAnno (c : Codecs) (note_content : String) :
    Except AppErr (Option Anno) :=
  match pyFind note_content CONTENT_BEGIN, pyFind note_content CONTENT_END with
  | some begin_idx, some end_idx =>
    let data_area := pyStrip (pySlice note_content (begin_idx + CONTENT_BEGIN.length) end_idx)
    match pySplitlines data_area with
    | [] => .error .indexError
    | first :: restLines =>
      let serializer_name := pyStrip (String.mk first)
      if serializer_name.data.isEmpty then .ok none
      else
        match getSerializerByName c serializer_name with
        | .error e => .error e
        | .ok ser =>
          match ser.deserialize (joinNL restLines) with
          | .error _ => .error .deserializeError
          | .ok .null => .ok none
          | .ok (.obj fs) =>
            match annoFromDict fs with
            | .error e => .error e
            | .ok a => .ok (some a)
          | .ok _ => .error .validationError
  | _, _ => .ok none

/-- A note of the external document service: id and free-text content
(the `Note` model of `paperless_api.py`, restricted to the fields the
storage layer reads). -/
structure PNote where
  id : Int
  note : String

/-- State of the external document service's notes, per document.
Modelled from the spec's external-interface section: the service stores
per-document note lists and assigns a fresh identifier to each created
note (`nextId` is the next unassigned id). -/
structure NotesState where
  notes : List (Nat × List PNote)
  nextId : Int

/-- All note ids the service has handed out are below `nextId`. -/
def NotesState.wf (st : NotesState) : Prop :=
  ∀ d ∈ st.notes, ∀ n ∈ d.2, n.id < st.nextId

/-- `PaperlessAPI.document_notes`: the notes of a document. -/
def NotesState.docNotes (st : NotesState) (doc_id : Nat) : List PNote :=
  match st.notes.find? (fun d => d.1 == doc_id) with
  | some d => d.2
  | none => []

/-- Replace a document's note list. -/
def NotesState.setDocNotes (st : NotesState) (doc_id : Nat) (ns : List PNote) :
    NotesState :=
  if st.notes.any (fun d => d.1 == doc_id) then
    { st with notes := st.notes.map (fun d => if d.1 == doc_id then (d.1, ns) else d) }
  else
    { st with notes := st.notes ++ [(doc_id, ns)] }

/-- `PaperlessAPI.add_note_to_document`: the service appends a note with a
fresh id and the client returns it (the last element of the returned note
list). -/
def NotesState.addNote (st : NotesState) (doc_id : Nat) (content : String) :
    NotesState × PNote :=
  let n : PNote := { id := st.nextId, note := content }
  ({ st.setDocNotes doc_id (st.docNotes doc_id ++ [n]) with nextId := st.nextId + 1 }, n)

/-- `PaperlessAPI.delete_note`: the service drops every note of the
document with the given id; the client returns `True` whenever the
request succeeds — it does not report whether anything was deleted
(`paperless_api.py` lines 191-196 end in an unconditional `return
True`). -/
def NotesState.deleteNote (st : NotesState) (doc_id : Nat) (note_id : Int) :
    NotesState × Bool :=
  (st.setDocNotes doc_id ((st.docNotes doc_id).filter (fun n => !(n.id == note_id))), true)

/-- `PaperlessNotesStorage.get_annotations`: decode each note of the
document, assign the note id as `db_id`, filter by page; any exception
while decoding a note (including the `AttributeError` from assigning
`db_id` on a decode result of `None`) skips that note. -/
def notesGetAnnos (c : Codecs) (st : NotesState) (doc_id : Nat)
    (page : Option Int) : List Anno :=
  (st.docNotes doc_id).filterMap (fun n =>
    match noteContentToAnno c n.note with
    | .ok (some a) =>
      let a' := { a with db_id := some n.id }
      match page with
      | none => some a'
      | some p => if a'.pageIndex = p then some a' else none
    | _ => none)

/-- `PaperlessNotesStorage.create_annotation`: encode the annotation (any
encoding error propagates before the service is called), add it as a
note, and return the annotation carrying the created note's id. -/
def notesCreateAnno (ser : AnnoSerializer) (rh : Anno → String) (st : NotesState)
    (doc_id : Nat) (a : Anno) : NotesState × Except AppErr Anno :=
  match annoToNoteContent ser rh a with
  | .error e => (st, .error e)
  | .ok content =>
    let (st', n) := st.addNote doc_id content
    (st', .ok { a with db_id := some n.id })

/-- `PaperlessNotesStorage.delete_annotation_by_id`: delegate to
`PaperlessAPI.delete_note`. -/
def notesDeleteAnnoById (st : NotesState) (doc_id : Nat) (db_id : Int) :
    NotesState × Bool :=
  st.deleteNote doc_id db_id

/-- `PaperlessNotesStorage.update_annotation`: require `db_id`; delete the
old note (raising `ValueError` if the delete reports failure — dead code,
since `delete_note` always reports success); create a new note with the
updated content and return the annotation carrying the new note id. -/
def notesUpdateAnno (ser : AnnoSerializer) (rh : Anno → String) (st : NotesState)
    (doc_id : Nat) (a : Anno) : NotesState × Except AppErr Anno :=
  match a.db_id with
  | none => (st, .error .missingDbId)
  | some old_note_id =>
    let (st1, ok) := notesDeleteAnnoById st doc_id old_note_id
    if !ok then (st1, .error (.notFound old_note_id))
    else
      match annoToNoteContent ser rh a with
      | .error e => (st1, .error e)
      | .ok content =>
        let (st2, n) := st1.addNote doc_id content
        (st2, .ok { a with db_id := some n.id })

/-- A row of the `DbAnnotation` Django model: auto-increment primary key
`id`, plus columns `doc_id`, `db_id`, `page_index`, `anno_obj` (the full
field dictionary, a JSON column). -/
structure DbRow where
  id : Int
  doc_id : Nat
  db_id : Int
  page_index : Option Int
  anno_obj : List (String × JVal)

/-- State of the local relational table: rows plus the next auto-increment
primary key. -/
structure DbState where
  rows : List DbRow
  nextId : Int

/-- `DatabaseAnnotationStorage.create_annotation`: insert a row (with
`db_id` defaulting to 0 when unset) and return the annotation carrying
the new row's primary key. -/
def dbCreateAnno (st : DbState) (doc_id : Nat) (a : Anno) : DbState × Anno :=
  let row : DbRow := { id := st.nextId, doc_id := doc_id, db_id := a.db_id.getD 0,
                       page_index := some a.pageIndex, anno_obj := a.modelDump }
  ({ rows := st.rows ++ [row], nextId := st.nextId + 1 },
   { a with db_id := some st.nextId })

/-- Worker of `dbGetAnnos`: validate each row's stored field dictionary;
a validation error aborts the generator, losing the remaining rows (there
is no exception handling in `DatabaseAnnotationStorage.get_annotations`).
Returns the annotations yielded before the abort and the aborting error,
if any. -/
def dbGetAnnosGo (page : Option Int) : List DbRow → List Anno × Option AppErr
  | [] => ([], none)
  | r :: rest =>
    match annoFromDict r.anno_obj with
    | .error e => ([], some e)
    | .ok a =>
      let a' := { a with db_id := some r.id }
      let keep :=
        match page with
        | none => true
        | some p => decide (a'.pageIndex = p)
      let (tl, err) := dbGetAnnosGo page rest
      if keep then (a' :: tl, err) else (tl, err)

/-- `DatabaseAnnotationStorage.get_annotations`: query by document (also
by page when `page` is truthy — note `if page:` is false for page 0, in
which case the page filter happens only client-side), validate each row,
yield with the row's primary key as `db_id`. -/
def dbGetAnnos (st : DbState) (doc_id : Nat) (page : Option Int) :
    List Anno × Option AppErr :=
  let rows :=
    match page with
    | some p =>
      if p ≠ 0 then st.rows.filter (fun r => r.doc_id == doc_id && r.page_index == some p)
      else st.rows.filter (fun r => r.doc_id == doc_id)
    | none => st.rows.filter (fun r => r.doc_id == doc_id)
  dbGetAnnosGo page rows

/-- `DatabaseAnnotationStorage.delete_annotation_by_id`:
`DbAnnotation.objects.get(id=db_id, doc_id=doc_id)` then delete, `True`;
a missing row gives `False` (the `DoesNotExist` branch); several matching
rows would raise Django's `MultipleObjectsReturned`, which the method does
not catch. -/
def dbDeleteAnnoById (st : DbState) (doc_id : Nat) (db_id : Int) :
    DbState × Except AppErr Bool :=
  match st.rows.filter (fun r => r.id == db_id && r.doc_id == doc_id) with
  | [] => (st, .ok false)
  | [_] =>
    ({ st with rows := st.rows.filter (fun r => !(r.id == db_id && r.doc_id == doc_id)) },
     .ok true)
  | _ => (st, .error .multipleObjects)

/-- The backend-agnostic storage interface consumed by
`PaperlessAnnotator` (`AnnoStorage`): listing with optional page filter,
and deletion by id.  `deleteById` receives the annotation's possibly-unset
`db_id` (the annotator passes `anno.db_id` straight through) and may
either return the found/not-found boolean or raise. -/
structure StorageOps (σ : Type) where
  getAnnos : σ → Nat → Option Int → List Anno
  deleteById : σ → Nat → Option Int → σ × Except AppErr Bool

/-- The reply-deletion loop of `PaperlessAnnotator.delete_anno`: for each
annotation on the target's page, delete it when it is not the target
itself (`db_id` differs) and its `inReplyToId` extension equals the
target's `id` extension (`annotation.id`, an `AttributeError` when the
target has no such extension — raised inside the loop, on the first
iteration).  A raised error propagates immediately. -/
def deleteReplies (ops : StorageOps σ) (doc_id : Nat) (target : Anno) :
    σ → List Anno → σ × Option AppErr
  | st, [] => (st, none)
  | st, o :: rest =>
    match jlookup target.extra "id" with
    | none => (st, some .attributeError)
    | some domainId =>
      if (o.db_id != target.db_id) && jeq ((jlookup o.extra "inReplyToId").getD .null) domainId then
        match ops.deleteById st doc_id o.db_id with
        | (st', .error e) => (st', some e)
        | (st', .ok _) => deleteReplies ops doc_id target st' rest
      else
        deleteReplies ops doc_id target st rest

/-- `PaperlessAnnotator.delete_anno`: list the annotations on the
target's page, delete every other annotation whose `inReplyToId`
extension equals the target's domain id (one level, no recursion), then
delete the target itself. -/
def deleteAnno (ops : StorageOps σ) (st : σ) (doc_id : Nat) (a : Anno) :
    σ × Except AppErr Bool :=
  let others := ops.getAnnos st doc_id (some a.pageIndex)
  match deleteReplies ops doc_id a st others with
  | (st', some e) => (st', .error e)
  | (st', none) => ops.deleteById st' doc_id a.db_id

/-- The inner loop of `PaperlessAnnotator.delete_all_annotations`: delete
each annotation of one document, adding the document id to the processed
set after each delete call; a raised error propagates, aborting the whole
operation. -/
def deleteAnnosOfDoc (ops : StorageOps σ) (doc_id : Nat) :
    σ → List Anno → Finset Nat → σ × Finset Nat × Option AppErr
  | st, [], acc => (st, acc, none)
  | st, an :: rest, acc =>
    match ops.deleteById st doc_id an.db_id with
    | (st', .error e) => (st', acc, some e)
    | (st', .ok _) => deleteAnnosOfDoc ops doc_id st' rest (insert doc_id acc)

/-- The document loop of `PaperlessAnnotator.delete_all_annotations`,
fused with the lazy `get_all_documents_with_annotations` generator it
consumes: a document in the skip list is skipped (both the generator and
the loop body check this); a document with no annotations in the current
state is not yielded by the generator; otherwise every annotation of the
document (listed in the current state) is deleted.  An error raised by a
delete aborts the whole loop and loses the accumulated set. -/
def deleteAllAnnosGo (ops : StorageOps σ) (skip : List Nat) :
    σ → List Nat → Finset Nat → σ × Except AppErr (Finset Nat)
  | st, [], acc => (st, .ok acc)
  | st, d :: rest, acc =>
    if skip.contains d then deleteAllAnnosGo ops skip st rest acc
    else
      let annos := ops.getAnnos st d none
      if annos.isEmpty then deleteAllAnnosGo ops skip st rest acc
      else
        match deleteAnnosOfDoc ops d st annos acc with
        | (st', _, some e) => (st', .error e)
        | (st', acc', none) => deleteAllAnnosGo ops skip st' rest acc'

/-- `PaperlessAnnotator.delete_all_annotations` over the corpus `docs`
(the ids `documents_iter()` yields, in order): deletes every annotation
of every non-skipped document that has annotations and returns the set of
processed document ids; an exception from a delete propagates. -/
def deleteAllAnnos (ops : StorageOps σ) (st : σ) (docs : List Nat)
    (docs_to_skip : List Nat) : σ × Except AppErr (Finset Nat) :=
  deleteAllAnnosGo ops docs_to_skip st docs ∅

/-- An in-memory instantiation of the storage interface used to exercise
the annotator: per-document annotation lists, plus fault injection —
deleting a `db_id` listed in `raisesOn` raises the wrapped service error
(`PaperlessAPIError`), as the note-based backend does on a failed HTTP
request. -/
structure MemState where
  annos : List (Nat × List Anno)
  raisesOn : List Int

/-- The stored annotations of one document. -/
def MemState.docAnnos (st : MemState) (doc_id : Nat) : List Anno :=
  match st.annos.find? (fun d => d.1 == doc_id) with
  | some d => d.2
  | none => []

/-- Replace one document's stored annotations. -/
def MemState.setDocAnnos (st : MemState) (doc_id : Nat) (as' : List Anno) :
    MemState :=
  if st.annos.any (fun d => d.1 == doc_id) then
    { st with annos := st.annos.map (fun d => if d.1 == doc_id then (d.1, as') else d) }
  else
    { st with annos := st.annos ++ [(doc_id, as')] }

/-- Listing for the in-memory storage: the document's annotations,
filtered by page when one is given. -/
def memGetAnnos (st : MemState) (doc_id : Nat) (page : Option Int) : List Anno :=
  match page with
  | none => st.docAnnos doc_id
  | some p => (st.docAnnos doc_id).filter (fun a => a.pageIndex == p)

/-- Deletion for the in-memory storage: remove the annotations with the
given `db_id`, reporting whether any existed; ids in `raisesOn` raise the
service error instead. -/
def memDeleteById (st : MemState) (doc_id : Nat) (db_id : Option Int) :
    MemState × Except AppErr Bool :=
  match db_id with
  | none => (st, .ok false)
  | some i =>
    if st.raisesOn.contains i then (st, .error .apiError)
    else
      let ds := st.docAnnos doc_id
      let ds' := ds.filter (fun a => !(a.db_id == some i))
      ((st.setDocAnnos doc_id ds'), .ok (decide (ds'.length ≠ ds.length)))

/-- The in-memory storage as a `StorageOps`. -/
def memOps : StorageOps MemState :=
  { getAnnos := memGetAnnos, deleteById := memDeleteById }

/-- A document as seen by the link synchronization engine (only the id is
consumed by `update_document_links`). -/
structure PDoc where
  id : Nat

/-- Django `reverse("view_document", kwargs={"doc_id": doc_id})`: the
route is `path("view/<doc_id>", view_document, name="view_document")` in
`urls.py`; the project URLconf (outside `src/`) mounts it at the site
root, consistently with the `istartswith` prefix used by the outdated-link
query, so the reversed path is `"/view/" + str(doc_id)`. -/
def reverseViewDocument (doc_id : Nat) : String :=
  "/view/" ++ toString doc_id

/-- One pass of `update_document_links`: iterate the documents the query
returned, skip those in `docs_to_skip`, write `mkValue doc.id` as the
document's custom field value (collected as `(id, value)` writes) and
append the id to `updated_docs`. -/
def linkPass (mkValue : Nat → String) (docs_to_skip : List Nat) :
    List PDoc → List (Nat × String) × List Nat
  | [] => ([], [])
  | d :: rest =>
    let (ws, ids) := linkPass mkValue docs_to_skip rest
    if docs_to_skip.contains d.id then (ws, ids)
    else ((d.id, mkValue d.id) :: ws, d.id :: ids)

/-- `update_document_links`.  The external index is queried twice
(paginated, lazily, and possibly stale): `missingDocs` are the documents
the "custom field does not exist" query returns, `outdatedDocs` the
documents the "field value does not start with `BASE_URL + "/view/"`"
query returns.  The fill-missing pass writes
`BASE_URL + reverse("view_document", ...)`; the repair pass writes
`BASE_URL + "/" + reverse("view_document", ...)` (auto_linking.py line
85).  Returns the writes performed and the `updated_docs` list. -/
def updateDocumentLinks (base_url : String) (missingDocs outdatedDocs : List PDoc)
    (docs_to_skip : List Nat) : List (Nat × String) × List Nat :=
  let p1 := linkPass (fun i => base_url ++ reverseViewDocument i) docs_to_skip missingDocs
  let p2 := linkPass (fun i => base_url ++ "/" ++ reverseViewDocument i) docs_to_skip
    outdatedDocs
  (p1.1 ++ p2.1, p1.2 ++ p2.2)

/-- The `istartswith` predicate of the external query language:
case-insensitive string prefix. -/
def iStartsWith (s pre : String) : Bool :=
  (pre.data.map Char.toLower).isPrefixOf (s.data.map Char.toLower)

/-- A `Codecs` instantiation used by concrete witnesses whose claims never
reach the parametric library codecs. -/
def trivialCodecs : Codecs :=
  { dumps2 := fun _ => ""
    dumps := fun _ => ""
    loads := fun _ => .error ()
    strEncode := fun _ => []
    strDecode := fun _ => none
    gzipCompress := fun bs => bs
    gzipDecompress := fun bs => .ok bs }

/-- A concrete annotation with extension fields (the spec's concrete
scenario, plus a domain-id and a structured extension), used by
witnesses. -/
def wAnno : Anno :=
  { created := "2024-03-01T10:00:00Z"
    author := "alice"
    type := 1
    pageIndex := 2
    contents := some "see note"
    extra := [("id", .str "a1"), ("custom", .obj [("text", .str "hi")])] }

/-- A `Codecs` instantiation whose library codecs round-trip on
`wAnno`'s dumped field dictionary, used by the serializer round-trip
witness. -/
def wCodecs : Codecs :=
  { dumps2 := fun _ => ""
    dumps := fun _ => ""
    loads := fun _ => .ok (.obj wAnno.modelDump)
    strEncode := fun _ => []
    strDecode := fun _ => some ""
    gzipCompress := fun bs => bs
    gzipDecompress := fun bs => .ok bs }

/-- Cascade-deletion scenario: the target annotation `A`, on page `p`,
with domain id `adom` (its `id` extension) and storage id 1. -/
def annoA (p : Int) (adom : String) : Anno :=
  { created := "", type := 0, pageIndex := p, db_id := some 1,
    extra := [("id", .str adom)] }

/-- Cascade-deletion scenario: reply `B` to `A` (same page, `inReplyToId`
= `adom`), with domain id `bdom` and storage id 2. -/
def annoB (p : Int) (adom bdom : String) : Anno :=
  { created := "", type := 0, pageIndex := p, db_id := some 2,
    extra := [("id", .str bdom), ("inReplyToId", .str adom)] }

/-- Cascade-deletion scenario: reply `C` to `A` (same page), storage
id 3. -/
def annoC (p : Int) (adom : String) : Anno :=
  { created := "", type := 0, pageIndex := p, db_id := some 3,
    extra := [("inReplyToId", .str adom)] }

/-- Cascade-deletion scenario: annotation `D` on a different page `q`
with the same `inReplyToId`, storage id 4. -/
def annoD (q : Int) (adom : String) : Anno :=
  { created := "", type := 0, pageIndex := q, db_id := some 4,
    extra := [("inReplyToId", .str adom)] }

/-- Cascade-deletion scenario: `R`, a reply to `B` (same page,
`inReplyToId` = `bdom`), storage id 5 — it tests that the cascade is one
level only. -/
def annoR (p : Int) (bdom : String) : Anno :=
  { created := "", type := 0, pageIndex := p, db_id := some 5,
    extra := [("inReplyToId", .str bdom)] }

/-- A one-row relational store (row id 9 on document 1) used by
witnesses. -/
def wDbState : DbState :=
  { rows := [{ id := 9, doc_id := 1, db_id := 0, page_index := none, anno_obj := [] }],
    nextId := 10 }

/-- A relational store for document 1 with a well-formed row (id 1), a
malformed row (id 2, empty field dictionary) and another well-formed row
(id 3). -/
def wDirtyDb : DbState :=
  { rows :=
      [{ id := 1, doc_id := 1, db_id := 0, page_index := some 0,
         anno_obj := [("created", .str "c"), ("type", .num 0), ("pageIndex", .num 0)] },
       { id := 2, doc_id := 1, db_id := 0, page_index := some 0, anno_obj := [] },
       { id := 3, doc_id := 1, db_id := 0, page_index := some 0,
         anno_obj := [("created", .str "c"), ("type", .num 0), ("pageIndex", .num 0)] }],
    nextId := 4 }

/-- The annotation stored in `wDirtyDb`'s well-formed rows. -/
def wDbAnno : Anno :=
  { created := "c", type := 0, pageIndex := 0 }

/-- A decodable note blob: header, delimiters, serializer name `ji2` and
a payload (which `wCodecs.loads` reads back as `wAnno`'s field
dictionary). -/
def wNoteGood : String :=
  "h\n" ++ CONTENT_BEGIN ++ "\nji2\nx\n" ++ CONTENT_END

/-- A malformed note blob: both delimiters but an empty data area, so
decoding raises (`data_area.splitlines()[0]` on an empty list). -/
def wNoteBad : String :=
  CONTENT_BEGIN ++ CONTENT_END

/-- A notes store for document 1 with a decodable note (id 1), a
malformed note (id 2) and another decodable note (id 3). -/
def wNotesState : NotesState :=
  { notes := [(1, [{ id := 1, note := wNoteGood }, { id := 2, note := wNoteBad },
                   { id := 3, note := wNoteGood }])],
    nextId := 4 }

/-- A note blob with both delimiters whose serializer-name line is
`foo`, a name matching no registered serializer. -/
def wUnknownBlob : String :=
  "h\n" ++ CONTENT_BEGIN ++ "\nfoo\nx\n" ++ CONTENT_END

/-- A minimal stored annotation with a given storage id. -/
def wMemAnno (i : Int) : Anno :=
  { created := "", type := 0, pageIndex := 0, db_id := some i }

/-- Three documents with one annotation each, no injected faults. -/
def wMemOk : MemState :=
  { annos := [(1, [wMemAnno 11]), (2, [wMemAnno 22]), (3, [wMemAnno 33])],
    raisesOn := [] }

/-- Two documents with one annotation each; deleting annotation 11 (on
document 1) raises the wrapped service error. -/
def wMemBad : MemState :=
  { annos := [(1, [wMemAnno 11]), (2, [wMemAnno 22])], raisesOn := [11] }

/-! ## Theorems -/

/-- `linkPass` writes and returns exactly the ids of the documents the
query yielded that are not in the `docs_to_skip` argument — nothing is
added to any skip set while the pass runs. -/
theorem linkPass_spec (f : Nat → String) (skip : List Nat) (docs : List PDoc) :
    linkPass f skip docs =
      ((docs.filter (fun d => !(skip.contains d.id))).map (fun d => (d.id, f d.id)),
       (docs.filter (fun d => !(skip.contains d.id))).map (fun d => d.id)) := by
  induction docs with
  | nil => rfl
  | cons d rest ih =>
    by_cases h : d.id ∈ skip
    · simp [linkPass, ih, List.filter_cons, h]
    · simp [linkPass, ih, List.filter_cons, h]

/-- C4 (amended): within one call to `update_document_links` nothing is
ever added to the skip set — both passes filter only against the
`docs_to_skip` argument, so the returned id list is the concatenation of
the non-skipped ids of the two query results, and a document returned by
both queries (a stale index) and not in `docs_to_skip` is written by both
passes and appears in the returned list at least twice. -/
theorem c4_no_within_cycle_skip (base_url : String) (missing outdated : List PDoc)
    (skip : List Nat) :
    (updateDocumentLinks base_url missing outdated skip).2
      = (missing.filter (fun d => !(skip.contains d.id))).map (fun d => d.id)
        ++ (outdated.filter (fun d => !(skip.contains d.id))).map (fun d => d.id)
    ∧ ∀ d : PDoc, d ∈ missing → d ∈ outdated → skip.contains d.id = false →
        2 ≤ ((updateDocumentLinks base_url missing outdated skip).2).count d.id := by
  have hc : (updateDocumentLinks base_url missing outdated skip).2
      = (missing.filter (fun d => !(skip.contains d.id))).map (fun d => d.id)
        ++ (outdated.filter (fun d => !(skip.contains d.id))).map (fun d => d.id) := by
    simp [updateDocumentLinks, linkPass_spec]
  refine ⟨hc, fun d hm ho hskip => ?_⟩
  rw [hc, List.count_append]
  have hns : d.id ∉ skip := by simpa using hskip
  have h1 : d.id ∈ (missing.filter (fun d => !(skip.contains d.id))).map (fun d => d.id) :=
    List.mem_map_of_mem _ (List.mem_filter.mpr ⟨hm, by simp [hns]⟩)
  have h2 : d.id ∈ (outdated.filter (fun d => !(skip.contains d.id))).map (fun d => d.id) :=
    List.mem_map_of_mem _ (List.mem_filter.mpr ⟨ho, by simp [hns]⟩)
  have c1 := List.count_pos_iff.mpr h1
  have c2 := List.count_pos_iff.mpr h2
  omega

/-- C4 witness: a document matched by both queries (id 1) with an empty
skip set is returned twice. -/
theorem c4_witness :
    (updateDocumentLinks "http://x" [⟨1⟩] [⟨1⟩] []).2
      = ([⟨1⟩] : List PDoc).map (fun d => d.id) ++ ([⟨1⟩] : List PDoc).map (fun d => d.id)
    ∧ 2 ≤ ((updateDocumentLinks "http://x" [⟨1⟩] [⟨1⟩] []).2).count 1 := by
  have h := c4_no_within_cycle_skip "http://x" [⟨1⟩] [⟨1⟩] []
  exact ⟨by simpa using h.1, h.2 ⟨1⟩ (by simp) (by simp) (by simp)⟩

/-- C4 counterexample: the claim says a document matching both queries is
touched exactly once per cycle; with document 1 returned by both queries
the returned list is `[1, 1]` — two writes, and a count of 2, not 1. -/
theorem c4_counterexample :
    (updateDocumentLinks "http://x" [⟨1⟩] [⟨1⟩] []).2 = [1, 1]
    ∧ ¬ ((updateDocumentLinks "http://x" [⟨1⟩] [⟨1⟩] []).2).count 1 = 1 := by
  exact ⟨rfl, by decide⟩

/-- C5: at the failing input (document 1 matching the outdated-link query,
base URL `"http://x"`) the repair pass writes `"http://x//view/1"` — with a
doubled slash, from `BASE_URL + "/" + reverse(...)` on line 85 of
`auto_linking.py` — which differs from the canonical value
`"http://x/view/1"` the fill-missing pass writes, and still does not start
with the expected prefix `"http://x/view/"`, so the document keeps
matching the outdated-link query. -/
theorem c5_repair_value_still_outdated :
    (updateDocumentLinks "http://x" [] [⟨1⟩] []).1 = [(1, "http://x//view/1")]
    ∧ iStartsWith "http://x//view/1" "http://x/view/" = false
    ∧ (updateDocumentLinks "http://x" [⟨1⟩] [] []).1 = [(1, "http://x/view/1")]
    ∧ iStartsWith "http://x/view/1" "http://x/view/" = true
    ∧ "http://x//view/1" ≠ "http://x/view/1" := by
  exact ⟨rfl, by decide, rfl, by decide, by decide⟩

/-- C6 counterexample: on an empty store (no record at all), the
note-based `delete_annotation_by_id` still returns `True` — the claim
says a delete with no matching record returns false for both backends. -/
theorem c6_counterexample :
    (notesDeleteAnnoById { notes := [], nextId := 0 } 1 5).2 = true
    ∧ (NotesState.mk [] 0).docNotes 1 = [] := by
  exact ⟨rfl, rfl⟩

/-- Characterization of the relational backend's
`delete_annotation_by_id` under unique primary keys: the returned boolean
reports whether a matching row existed, and exactly the matching rows are
removed. -/
theorem dbDeleteAnnoById_spec (dst : DbState) (docD : Nat) (did : Int)
    (hpk : (dst.rows.map (fun r => r.id)).Nodup) :
    (dbDeleteAnnoById dst docD did).2
        = .ok (decide (∃ r ∈ dst.rows, r.id = did ∧ r.doc_id = docD))
    ∧ (dbDeleteAnnoById dst docD did).1.rows
        = dst.rows.filter (fun r => !(r.id == did && r.doc_id == docD)) := by
  cases hm : dst.rows.filter (fun r => r.id == did && r.doc_id == docD) with
  | nil =>
    have hno : ∀ r ∈ dst.rows, ¬(r.id = did ∧ r.doc_id = docD) := by
      intro r hr hc
      have := List.filter_eq_nil_iff.mp hm r hr
      simp [hc.1, hc.2] at this
    constructor
    · simp only [dbDeleteAnnoById, hm]
      have hdec : (decide (∃ r ∈ dst.rows, r.id = did ∧ r.doc_id = docD)) = false := by
        simp only [decide_eq_false_iff_not]
        rintro ⟨r, hr, hc⟩
        exact hno r hr hc
      rw [hdec]
    · simp only [dbDeleteAnnoById, hm]
      symm
      refine List.filter_eq_self.mpr (fun r hr => ?_)
      have h := hno r hr
      by_cases h1 : r.id = did
      · by_cases h2 : r.doc_id = docD
        · exact absurd ⟨h1, h2⟩ h
        · simp [h2]
      · simp [h1]
  | cons r tl =>
    have hrmem : r ∈ dst.rows.filter (fun r => r.id == did && r.doc_id == docD) := by
      rw [hm]; exact List.mem_cons_self _ _
    have hrP := List.mem_filter.mp hrmem
    cases tl with
    | nil =>
      constructor
      · simp only [dbDeleteAnnoById, hm]
        have hdec : (decide (∃ r' ∈ dst.rows, r'.id = did ∧ r'.doc_id = docD)) = true := by
          simp only [decide_eq_true_eq]
          exact ⟨r, hrP.1, by simpa using hrP.2⟩
        rw [hdec]
      · simp only [dbDeleteAnnoById, hm]
    | cons r2 tl2 =>
      exfalso
      have hr2mem : r2 ∈ dst.rows.filter (fun r => r.id == did && r.doc_id == docD) := by
        rw [hm]; exact List.mem_cons_of_mem _ (List.mem_cons_self _ _)
      have hr2P := List.mem_filter.mp hr2mem
      have hsub : ((dst.rows.filter
          (fun r => r.id == did && r.doc_id == docD)).map (fun r => r.id)).Nodup :=
        List.Nodup.sublist ((List.filter_sublist dst.rows).map (fun r => r.id)) hpk
      rw [hm] at hsub
      simp only [List.map_cons, List.nodup_cons, List.mem_cons, List.mem_map] at hsub
      have e1 : r.id = did := by
        have := hrP.2
        simp only [Bool.and_eq_true, beq_iff_eq] at this
        exact this.1
      have e2 : r2.id = did := by
        have := hr2P.2
        simp only [Bool.and_eq_true, beq_iff_eq] at this
        exact this.1
      exact hsub.1 (Or.inl (e1.trans e2.symm))

/-- C6 (amended): the relational backend honours the contract — with
unique primary keys, `delete_annotation_by_id` returns true exactly when
a row with that id and document exists, removes exactly that row, and
returns false (without raising) otherwise; but the note-based backend
never reports not-found: `PaperlessAPI.delete_note` ends in an
unconditional `return True`, so its `delete_annotation_by_id` returns
true whenever the service call succeeds, whether or not a note with that
id existed. -/
theorem c6_delete_by_id_contract (nst : NotesState) (dst : DbState) (docN : Nat)
    (nid : Int) (docD : Nat) (did : Int)
    (hpk : (dst.rows.map (fun r => r.id)).Nodup) :
    (notesDeleteAnnoById nst docN nid).2 = true
    ∧ (dbDeleteAnnoById dst docD did).2
        = .ok (decide (∃ r ∈ dst.rows, r.id = did ∧ r.doc_id = docD))
    ∧ (dbDeleteAnnoById dst docD did).1.rows
        = dst.rows.filter (fun r => !(r.id == did && r.doc_id == docD)) :=
  ⟨rfl, (dbDeleteAnnoById_spec dst docD did hpk).1, (dbDeleteAnnoById_spec dst docD did hpk).2⟩

/-- C2: decode discrimination.  (1) A blob in which either content
delimiter is absent decodes to `None` (not an annotation), raising
nothing.  (2) A blob with both delimiters whose first data-area line
strips to a non-empty name that matches no registered serializer raises
the `ValueError` of `get_serializer_by_name`, which carries the requested
name and enumerates the known serializer names `["85gj", "ji2"]`. -/
theorem c2_decode_discrimination (c : Codecs) (blob : String) :
    (pyFind blob CONTENT_BEGIN = none ∨ pyFind blob CONTENT_END = none →
      noteContentToAnno c blob = .ok none)
    ∧ (∀ nm : String, noteSerializerName blob = some nm → nm ≠ "" →
        nm ∉ (["85gj", "ji2"] : List String) →
        noteContentToAnno c blob = .error (.unknownSerializer nm ["85gj", "ji2"])) := by
  constructor
  · intro h
    cases hB : pyFind blob CONTENT_BEGIN with
    | none => simp [noteContentToAnno, hB]
    | some bi =>
      cases hE : pyFind blob CONTENT_END with
      | none => simp [noteContentToAnno, hB, hE]
      | some ei =>
        rcases h with h | h
        · rw [h] at hB; exact Option.noConfusion hB
        · rw [h] at hE; exact Option.noConfusion hE
  · intro nm hname hne hunk
    cases hB : pyFind blob CONTENT_BEGIN with
    | none =>
      simp only [noteSerializerName, noteDataArea, hB] at hname
      exact Option.noConfusion hname
    | some bi =>
      cases hE : pyFind blob CONTENT_END with
      | none =>
        simp only [noteSerializerName, noteDataArea, hB, hE] at hname
        exact Option.noConfusion hname
      | some ei =>
        simp only [noteSerializerName, noteDataArea, hB, hE] at hname
        cases hs : pySplitlines
            (pyStrip (pySlice blob (bi + CONTENT_BEGIN.length) ei)) with
        | nil => rw [hs] at hname; exact Option.noConfusion hname
        | cons first restLines =>
          rw [hs] at hname
          have hstrip : pyStrip (String.mk first) = nm := Option.some.inj hname
          have hempty : nm.data.isEmpty = false := by
            cases hdata : nm.data with
            | nil =>
              exfalso
              exact hne (by
                have : nm = String.mk nm.data := rfl
                rw [hdata] at this
                exact this)
            | cons a l => rfl
          have h1 : ("85gj" == nm) = false := by
            simp only [beq_eq_false_iff_ne, ne_eq]
            intro hcontra
            exact hunk (by simp [hcontra])
          have h2 : ("ji2" == nm) = false := by
            simp only [beq_eq_false_iff_ne, ne_eq]
            intro hcontra
            exact hunk (by simp [hcontra])
          simp only [noteContentToAnno, hB, hE, hs, hstrip, hempty,
            getSerializerByName, registeredSerializers, registeredNames,
            base85GzipJSONSerializer, jsonSerializer, List.find?, h1, h2,
            Bool.false_eq_true, if_false, List.map]

/-- C2 witness: a human note without delimiters decodes to `None`; the
blob `wUnknownBlob` (delimiters present, serializer-name line `foo`)
raises the unknown-serializer error enumerating `["85gj", "ji2"]`. -/
theorem c2_witness :
    noteContentToAnno trivialCodecs "just a human note" = .ok none
    ∧ noteContentToAnno trivialCodecs wUnknownBlob
        = .error (.unknownSerializer "foo" ["85gj", "ji2"]) := by
  constructor
  · exact (c2_decode_discrimination trivialCodecs "just a human note").1
      (Or.inl (by rfl))
  · exact (c2_decode_discrimination trivialCodecs wUnknownBlob).2 "foo"
      (by rfl) (by decide) (by decide)

/-- C3: delimiter-collision safety.  When the rendered header or the
serialized payload of an annotation contains either content delimiter,
`create_annotation` fails with the reserved-delimiter `ValueError` raised
inside `_anno_to_note_content` — before `add_note_to_document` is ever
called — and the stored note state is returned unchanged. -/
theorem c3_delimiter_collision (ser : AnnoSerializer) (rh : Anno → String)
    (st : NotesState) (doc_id : Nat) (a : Anno)
    (h : pyContains (rh a) CONTENT_BEGIN = true ∨ pyContains (rh a) CONTENT_END = true
       ∨ pyContains (ser.serialize (.obj a.modelDump) ++ "\n") CONTENT_BEGIN = true
       ∨ pyContains (ser.serialize (.obj a.modelDump) ++ "\n") CONTENT_END = true) :
    notesCreateAnno ser rh st doc_id a = (st, .error .reservedDelimiter) := by
  rcases h with h | h | h | h
  · simp [notesCreateAnno, annoToNoteContent, h]
  · simp [notesCreateAnno, annoToNoteContent, h]
  all_goals
    by_cases h1 : (pyContains (rh a) CONTENT_BEGIN || pyContains (rh a) CONTENT_END) = true
    · simp [notesCreateAnno, annoToNoteContent, h1]
    · simp [notesCreateAnno, annoToNoteContent, h1, h]

/-- C3 witness: a header rendering that emits the BEGIN delimiter itself
makes `create_annotation` fail with the reserved-delimiter error and
leaves the (empty) note store untouched. -/
theorem c3_witness :
    notesCreateAnno (jsonSerializer trivialCodecs) (fun _ => CONTENT_BEGIN)
      { notes := [], nextId := 0 } 1 wAnno
      = ({ notes := [], nextId := 0 }, .error .reservedDelimiter) := by
  exact c3_delimiter_collision (jsonSerializer trivialCodecs) (fun _ => CONTENT_BEGIN)
    { notes := [], nextId := 0 } 1 wAnno (Or.inl (by decide))

/-- `find?` hits the overwritten entry after a keyed in-place update. -/
theorem find?_map_set (l : List (Nat × List PNote)) (doc : Nat) (ns : List PNote)
    (h : l.any (fun d => d.1 == doc) = true) :
    (l.map (fun d => if d.1 == doc then (d.1, ns) else d)).find? (fun d => d.1 == doc)
      = some (doc, ns) := by
  induction l with
  | nil => simp at h
  | cons e tl ih =>
    by_cases he : e.1 = doc
    · subst he
      simp [List.find?]
    · have he' : (e.1 == doc) = false := by simp [he]
      have hmap : (e :: tl).map (fun d => if d.1 == doc then (d.1, ns) else d)
          = e :: tl.map (fun d => if d.1 == doc then (d.1, ns) else d) := by
        simp only [List.map_cons, he', Bool.false_eq_true, if_false]
      rw [hmap, List.find?_cons_of_neg _ (by simp [he])]
      simp only [List.any_cons, he', Bool.false_or] at h
      exact ih h

/-- `find?` hits the appended entry when no existing entry matches. -/
theorem find?_append_fresh (l : List (Nat × List PNote)) (doc : Nat) (ns : List PNote)
    (h : l.any (fun d => d.1 == doc) = false) :
    (l ++ [(doc, ns)]).find? (fun d => d.1 == doc) = some (doc, ns) := by
  induction l with
  | nil => simp [List.find?]
  | cons e tl ih =>
    simp only [List.any_cons, Bool.or_eq_false_iff] at h
    simp only [List.cons_append, List.find?, h.1]
    exact ih h.2

/-- The next-id counter is untouched by a note-list write. -/
theorem nextId_setDocNotes (st : NotesState) (doc : Nat) (ns : List PNote) :
    (st.setDocNotes doc ns).nextId = st.nextId := by
  unfold NotesState.setDocNotes
  split
  · rfl
  · rfl

/-- Reading back a document's notes after writing them. -/
theorem docNotes_setDocNotes (st : NotesState) (doc : Nat) (ns : List PNote) :
    (st.setDocNotes doc ns).docNotes doc = ns := by
  unfold NotesState.setDocNotes NotesState.docNotes
  by_cases h : st.notes.any (fun d => d.1 == doc) = true
  · simp only [h, if_true, find?_map_set st.notes doc ns h]
  · have h' : st.notes.any (fun d => d.1 == doc) = false := by
      simp only [Bool.not_eq_true] at h
      exact h
    simp only [h', Bool.false_eq_true, if_false, find?_append_fresh st.notes doc ns h']

/-- C10: a successful note-based `update_annotation` returns the
annotation carrying the freshly created note's id (`st.nextId`), which is
not the `db_id` that was passed in (every id the service ever handed out,
including `old`, is below `nextId`); afterwards the document stores no
note under the old id — its notes are the previous ones minus the old
note, plus the new note under the fresh id — so subsequent updates or
deletes must use the returned `db_id`. -/
theorem c10_update_reassigns_db_id (ser : AnnoSerializer) (rh : Anno → String)
    (st : NotesState) (doc : Nat) (a : Anno) (old : Int) (content : String)
    (hdb : a.db_id = some old)
    (hold : old < st.nextId)
    (henc : annoToNoteContent ser rh a = .ok content) :
    (notesUpdateAnno ser rh st doc a).2 = .ok { a with db_id := some st.nextId }
    ∧ a.db_id ≠ some st.nextId
    ∧ ((notesUpdateAnno ser rh st doc a).1.docNotes doc).filter
        (fun n => n.id == old) = []
    ∧ (notesUpdateAnno ser rh st doc a).1.docNotes doc
        = ((st.docNotes doc).filter (fun n => !(n.id == old)))
          ++ [{ id := st.nextId, note := content }] := by
  have hres : notesUpdateAnno ser rh st doc a
      = (({ (st.setDocNotes doc ((st.docNotes doc).filter (fun n => !(n.id == old)))).setDocNotes
              doc (((st.setDocNotes doc ((st.docNotes doc).filter
                (fun n => !(n.id == old)))).docNotes doc)
                ++ [{ id := st.nextId, note := content }]) with nextId := st.nextId + 1 }),
         .ok { a with db_id := some st.nextId }) := by
    simp only [notesUpdateAnno, hdb, notesDeleteAnnoById, NotesState.deleteNote,
      Bool.not_true, Bool.false_eq_true, if_false, henc, NotesState.addNote,
      nextId_setDocNotes]
  have hmid : (st.setDocNotes doc ((st.docNotes doc).filter
      (fun n => !(n.id == old)))).docNotes doc
      = (st.docNotes doc).filter (fun n => !(n.id == old)) :=
    docNotes_setDocNotes st doc _
  have hfinal : (notesUpdateAnno ser rh st doc a).1.docNotes doc
      = ((st.docNotes doc).filter (fun n => !(n.id == old)))
        ++ [{ id := st.nextId, note := content }] := by
    rw [hres]
    have : ∀ (s : NotesState) (k : Int),
        ({ s with nextId := k } : NotesState).docNotes doc = s.docNotes doc := by
      intro s k; rfl
    rw [this, docNotes_setDocNotes, hmid]
  refine ⟨by rw [hres], ?_, ?_, hfinal⟩
  · rw [hdb]
    intro hc
    have := Option.some.inj hc
    omega
  · rw [hfinal, List.filter_append]
    have hleft : ((st.docNotes doc).filter (fun n => !(n.id == old))).filter
        (fun n => n.id == old) = [] := by
      refine List.filter_eq_nil_iff.mpr (fun n hn => ?_)
      have := (List.mem_filter.mp hn).2
      simp only [Bool.not_eq_eq_eq_not, Bool.not_true] at this
      simp [this]
    have hright : ([{ id := st.nextId, note := content }] : List PNote).filter
        (fun n => n.id == old) = [] := by
      have : (st.nextId == old) = false := by
        simp only [beq_eq_false_iff_ne, ne_eq]
        omega
      simp [List.filter, this]
    rw [hleft, hright]
    rfl

/-- C10 witness: updating the annotation stored under note id 0 (store
next id 1) returns the annotation under the fresh `db_id` 1, not 0, and
the document no longer stores a note with id 0. -/
theorem c10_witness :
    (notesUpdateAnno (jsonSerializer trivialCodecs) (fun _ => "h")
        { notes := [(1, [{ id := 0, note := "x" }])], nextId := 1 } 1
        { wAnno with db_id := some 0 }).2
      = .ok { wAnno with db_id := some 1 }
    ∧ ({ wAnno with db_id := some 0 } : Anno).db_id ≠ some 1
    ∧ ((notesUpdateAnno (jsonSerializer trivialCodecs) (fun _ => "h")
        { notes := [(1, [{ id := 0, note := "x" }])], nextId := 1 } 1
        { wAnno with db_id := some 0 }).1.docNotes 1).filter
          (fun n => n.id == 0) = [] := by
  have h := c10_update_reassigns_db_id (jsonSerializer trivialCodecs) (fun _ => "h")
    { notes := [(1, [{ id := 0, note := "x" }])], nextId := 1 } 1
    { wAnno with db_id := some 0 } 0
    "h\n------------ DATA BEGIN ------------\nji2\n\n------------ DATA END ------------"
    rfl (by decide) (by rfl)
  exact ⟨h.1, h.2.1, h.2.2.1⟩

/-- C9: cascade deletion is one level and page-scoped.  With annotation
`A` (page `p`, domain id `adom`), replies `B`, `C` on the same page whose
`inReplyToId` is `adom`, annotation `D` on another page `q` with the same
`inReplyToId`, and `R` a reply to `B` on page `p` (`inReplyToId` is `B`'s
own domain id `bdom`), deleting `A` through the annotator removes `A`,
`B` and `C`, leaves `D` (other page, never scanned) and leaves `R`
(reply-to-reply: its `inReplyToId` is not `adom`), and reports the target
deletion as successful. -/
theorem c9_cascade_one_level (p q : Int) (adom bdom : String)
    (hpq : q ≠ p) (hdom : bdom ≠ adom) :
    deleteAnno memOps
      { annos := [(7, [annoA p adom, annoB p adom bdom, annoC p adom,
                       annoD q adom, annoR p bdom])], raisesOn := [] } 7 (annoA p adom)
      = ({ annos := [(7, [annoD q adom, annoR p bdom])], raisesOn := [] }, .ok true) := by
  have hq : (q == p) = false := by simp [hpq]
  have hb : (bdom == adom) = false := by simp [hdom]
  simp [deleteAnno, deleteReplies, memOps, memGetAnnos, memDeleteById,
    MemState.docAnnos, MemState.setDocAnnos, annoA, annoB, annoC, annoD, annoR,
    jlookup, jeq, hq, hb, List.filter, List.find?]

/-- C9 witness: the cascade scenario at pages 0 and 1 with domain ids
`"a"` and `"b"`. -/
theorem c9_witness :
    deleteAnno memOps
      { annos := [(7, [annoA 0 "a", annoB 0 "a" "b", annoC 0 "a",
                       annoD 1 "a", annoR 0 "b"])], raisesOn := [] } 7 (annoA 0 "a")
      = ({ annos := [(7, [annoD 1 "a", annoR 0 "b"])], raisesOn := [] }, .ok true) :=
  c9_cascade_one_level 0 1 "a" "b" (by decide) (by decide)

/-- `find?` by one key is unchanged by an in-place update of another
key's entry. -/
theorem find?_map_set_ne (l : List (Nat × List Anno)) (doc e : Nat)
    (as' : List Anno) (h : e ≠ doc) :
    (l.map (fun d => if d.1 == doc then (d.1, as') else d)).find? (fun d => d.1 == e)
      = l.find? (fun d => d.1 == e) := by
  induction l with
  | nil => rfl
  | cons a tl ih =>
    by_cases hd : a.1 = doc
    · have he' : (a.1 == e) = false := by simp [hd, Ne.symm h]
      have hd' : (a.1 == doc) = true := by simp [hd]
      simp only [List.map_cons, hd', if_true]
      rw [List.find?_cons_of_neg _ (by simp [hd, Ne.symm h]),
        List.find?_cons_of_neg _ (by simp [he']), ih]
    · have hd' : (a.1 == doc) = false := by simp [hd]
      simp only [List.map_cons, hd', Bool.false_eq_true, if_false]
      by_cases he : a.1 = e
      · rw [List.find?_cons_of_pos _ (by simp [he]),
          List.find?_cons_of_pos _ (by simp [he])]
      · rw [List.find?_cons_of_neg _ (by simp [he]),
          List.find?_cons_of_neg _ (by simp [he]), ih]

/-- `find?` by one key is unchanged by appending another key's entry. -/
theorem find?_append_single_ne (l : List (Nat × List Anno)) (doc e : Nat)
    (as' : List Anno) (h : e ≠ doc) :
    (l ++ [(doc, as')]).find? (fun d => d.1 == e) = l.find? (fun d => d.1 == e) := by
  induction l with
  | nil =>
    simp only [List.nil_append]
    rw [List.find?_cons_of_neg _ (by simp [Ne.symm h])]
  | cons a tl ih =>
    by_cases he : a.1 = e
    · simp only [List.cons_append]
      rw [List.find?_cons_of_pos _ (by simp [he]),
        List.find?_cons_of_pos _ (by simp [he])]
    · simp only [List.cons_append]
      rw [List.find?_cons_of_neg _ (by simp [he]),
        List.find?_cons_of_neg _ (by simp [he]), ih]

/-- A write to one document's annotations leaves every other document's
annotations unchanged. -/
theorem docAnnos_setDocAnnos_ne (st : MemState) (doc e : Nat) (as' : List Anno)
    (h : e ≠ doc) :
    (st.setDocAnnos doc as').docAnnos e = st.docAnnos e := by
  unfold MemState.setDocAnnos MemState.docAnnos
  by_cases ha : st.annos.any (fun d => d.1 == doc) = true
  · simp only [ha, if_true, find?_map_set_ne st.annos doc e as' h]
  · have ha' : st.annos.any (fun d => d.1 == doc) = false := by
      simp only [Bool.not_eq_true] at ha
      exact ha
    simp only [ha', Bool.false_eq_true, if_false,
      find?_append_single_ne st.annos doc e as' h]

/-- The fault set is untouched by an annotation-list write. -/
theorem raisesOn_setDocAnnos (st : MemState) (doc : Nat) (as' : List Anno) :
    (st.setDocAnnos doc as').raisesOn = st.raisesOn := by
  unfold MemState.setDocAnnos
  split
  · rfl
  · rfl

/-- The per-document deletion loop of `delete_all_annotations`, on a
storage with no injected faults: it never raises, adds the document to
the processed set exactly when the document had annotations to delete
(whatever booleans the deletes return), and touches no other document's
annotations. -/
theorem deleteAnnosOfDoc_ok (doc : Nat) (annos : List Anno) :
    ∀ (st : MemState) (acc : Finset Nat), st.raisesOn = [] →
    (deleteAnnosOfDoc memOps doc st annos acc).2.2 = none
    ∧ (deleteAnnosOfDoc memOps doc st annos acc).2.1
        = (if annos.isEmpty then acc else insert doc acc)
    ∧ (deleteAnnosOfDoc memOps doc st annos acc).1.raisesOn = []
    ∧ ∀ e, e ≠ doc → (deleteAnnosOfDoc memOps doc st annos acc).1.docAnnos e
        = st.docAnnos e := by
  induction annos with
  | nil =>
    intro st acc h
    exact ⟨rfl, rfl, h, fun e _ => rfl⟩
  | cons an rest ih =>
    intro st acc h
    cases hdb : an.db_id with
    | none =>
      have hstep : deleteAnnosOfDoc memOps doc st (an :: rest) acc
          = deleteAnnosOfDoc memOps doc st rest (insert doc acc) := by
        simp [deleteAnnosOfDoc, memOps, memDeleteById, hdb]
      rw [hstep]
      obtain ⟨h1, h2, h3, h4⟩ := ih st (insert doc acc) h
      refine ⟨h1, ?_, h3, h4⟩
      rw [h2]
      cases rest with
      | nil => simp
      | cons b tl => simp [Finset.insert_idem]
    | some i =>
      have hmem : i ∉ st.raisesOn := by rw [h]; simp
      have hstep : deleteAnnosOfDoc memOps doc st (an :: rest) acc
          = deleteAnnosOfDoc memOps doc
              (st.setDocAnnos doc
                ((st.docAnnos doc).filter (fun a => !(a.db_id == some i))))
              rest (insert doc acc) := by
        simp [deleteAnnosOfDoc, memOps, memDeleteById, hdb, hmem]
      rw [hstep]
      have hra : (st.setDocAnnos doc
          ((st.docAnnos doc).filter (fun a => !(a.db_id == some i)))).raisesOn = [] := by
        rw [raisesOn_setDocAnnos]; exact h
      obtain ⟨h1, h2, h3, h4⟩ := ih _ (insert doc acc) hra
      refine ⟨h1, ?_, h3, fun e he => ?_⟩
      · rw [h2]
        cases rest with
        | nil => simp
        | cons b tl => simp [Finset.insert_idem]
      · rw [h4 e he, docAnnos_setDocAnnos_ne _ _ _ _ he]

/-- The document loop of `delete_all_annotations` on a storage with no
injected faults: no abort, and the processed set collects exactly the
non-skipped documents that had annotations. -/
theorem deleteAllAnnosGo_ok (skip : List Nat) (docs : List Nat) :
    ∀ (st : MemState) (acc : Finset Nat), st.raisesOn = [] → docs.Nodup →
    (deleteAllAnnosGo memOps skip st docs acc).2
      = .ok (acc ∪ (docs.filter
          (fun d => !(skip.contains d) && !(st.docAnnos d).isEmpty)).toFinset) := by
  induction docs with
  | nil =>
    intro st acc _ _
    simp [deleteAllAnnosGo]
  | cons d rest ih =>
    intro st acc h hnd
    simp only [List.nodup_cons] at hnd
    by_cases hskip : d ∈ skip
    · have hstep : deleteAllAnnosGo memOps skip st (d :: rest) acc
          = deleteAllAnnosGo memOps skip st rest acc := by
        simp [deleteAllAnnosGo, hskip]
      rw [hstep, ih st acc h hnd.2]
      have hfilter : (d :: rest).filter
          (fun d => !(skip.contains d) && !(st.docAnnos d).isEmpty)
          = rest.filter (fun d => !(skip.contains d) && !(st.docAnnos d).isEmpty) := by
        simp [List.filter_cons, hskip]
      rw [hfilter]
    · by_cases hann : (st.docAnnos d).isEmpty = true
      · have hstep : deleteAllAnnosGo memOps skip st (d :: rest) acc
            = deleteAllAnnosGo memOps skip st rest acc := by
          have hga : memOps.getAnnos st d none = st.docAnnos d := rfl
          simp [deleteAllAnnosGo, hskip, hga, hann]
        rw [hstep, ih st acc h hnd.2]
        have hfilter : (d :: rest).filter
            (fun d => !(skip.contains d) && !(st.docAnnos d).isEmpty)
            = rest.filter (fun d => !(skip.contains d) && !(st.docAnnos d).isEmpty) := by
          simp [List.filter_cons, hskip, hann]
        rw [hfilter]
      · have hann' : (st.docAnnos d).isEmpty = false := by
          simp only [Bool.not_eq_true] at hann
          exact hann
        have hga : memOps.getAnnos st d none = st.docAnnos d := rfl
        obtain ⟨h1, h2, h3, h4⟩ := deleteAnnosOfDoc_ok d (st.docAnnos d) st acc h
        rcases hres : deleteAnnosOfDoc memOps d st (st.docAnnos d) acc with ⟨st', acc2, err⟩
        rw [hres] at h1 h2 h3 h4
        have herr : err = none := h1
        subst herr
        have hacc2 : acc2 = insert d acc := by
          have h2' : acc2 = if (st.docAnnos d).isEmpty then acc else insert d acc := h2
          rw [hann'] at h2'
          simpa using h2'
        subst hacc2
        have h3' : st'.raisesOn = [] := h3
        have h4' : ∀ e, e ≠ d → st'.docAnnos e = st.docAnnos e := h4
        have hstep : deleteAllAnnosGo memOps skip st (d :: rest) acc
            = deleteAllAnnosGo memOps skip st' rest (insert d acc) := by
          simp [deleteAllAnnosGo, hskip, hga, hann', hres]
        rw [hstep, ih st' (insert d acc) h3' hnd.2]
        have hfilter2 : rest.filter (fun e =>
            !(skip.contains e) && !(st'.docAnnos e).isEmpty)
            = rest.filter (fun e => !(skip.contains e) && !(st.docAnnos e).isEmpty) := by
          refine List.filter_congr (fun e he => ?_)
          have hne : e ≠ d := fun hc => hnd.1 (hc ▸ he)
          rw [h4' e hne]
        rw [hfilter2]
        have hfilter3 : (d :: rest).filter
            (fun e => !(skip.contains e) && !(st.docAnnos e).isEmpty)
            = d :: rest.filter (fun e => !(skip.contains e) && !(st.docAnnos e).isEmpty) := by
          simp [List.filter_cons, hskip, hann']
        rw [hfilter3]
        simp [List.toFinset_cons, Finset.insert_union, Finset.union_insert]

/-- C8 counterexample: in `wMemBad` (documents 1 and 2, one annotation
each, deleting annotation 11 raises the wrapped service error),
`delete_all_annotations` over documents `[1, 2]` aborts with the error
raised on document 1: no id set is returned, document 2 is never
processed, and its annotation is still stored — the claim says a failure
on document N does not prevent processing document N+1. -/
theorem c8_counterexample :
    deleteAllAnnos memOps wMemBad [1, 2] [] = (wMemBad, .error .apiError)
    ∧ wMemBad.docAnnos 2 = [wMemAnno 22] := by
  exact ⟨rfl, rfl⟩

/-- C8 (amended): when no delete call raises (empty fault set),
`delete_all_annotations` iterates the non-skipped documents that have
annotations, deletes their annotations, and returns exactly the set of
their ids — a delete that merely reports not-found (boolean false) does
not stop it; but (per the counterexample) a raised service error aborts
the whole operation, so later documents are not processed. -/
theorem c8_delete_all_error_handling (st : MemState) (docs skip : List Nat)
    (hraise : st.raisesOn = []) (hnd : docs.Nodup) :
    (deleteAllAnnos memOps st docs skip).2
      = .ok ((docs.filter
          (fun d => !(skip.contains d) && !(st.docAnnos d).isEmpty)).toFinset) := by
  unfold deleteAllAnnos
  rw [deleteAllAnnosGo_ok skip docs st ∅ hraise hnd]
  rw [Finset.empty_union]

/-- C8 witness: with no faults (`wMemOk`, documents 1, 2, 3) and document
2 skipped, the returned set is exactly the ids 1 and 3. -/
theorem c8_witness :
    (deleteAllAnnos memOps wMemOk [1, 2, 3] [2]).2
      = .ok (([1, 2, 3].filter
          (fun d => !(([2] : List Nat).contains d)
            && !(wMemOk.docAnnos d).isEmpty)).toFinset)
    ∧ ([1, 2, 3].filter
          (fun d => !(([2] : List Nat).contains d)
            && !(wMemOk.docAnnos d).isEmpty)).toFinset = {1, 3} := by
  constructor
  · exact c8_delete_all_error_handling wMemOk [1, 2, 3] [2] rfl (by decide)
  · decide

/-- Decoding an alphabet character recovers its digit. -/
theorem b85val_b85char (d : Nat) (h : d < 85) : b85val (b85char d) = some d := by
  interval_cases d <;> rfl

/-- The pad character `~` is the digit 84. -/
theorem b85char_tilde : b85char 84 = '~' := by
  rfl

/-- The value of five digit characters. -/
theorem b85decWord_digits (d4 d3 d2 d1 d0 : Nat) (h4 : d4 < 85) (h3 : d3 < 85)
    (h2 : d2 < 85) (h1 : d1 < 85) (h0 : d0 < 85) :
    b85decWord [b85char d4, b85char d3, b85char d2, b85char d1, b85char d0]
      = some (d4 * 52200625 + (d3 * 614125 + (d2 * 7225 + (d1 * 85 + (d0 * 1 + 0))))) := by
  have e4 := b85val_b85char d4 h4
  have e3 := b85val_b85char d3 h3
  have e2 := b85val_b85char d2 h2
  have e1 := b85val_b85char d1 h1
  have e0 := b85val_b85char d0 h0
  simp only [b85decWord, e4, e3, e2, e1, e0, Option.bind_eq_bind, Option.some_bind,
    List.length_cons, List.length_nil]
  norm_num

/-- Big-endian base-256 packing of four bytes is inverted by
`wordBytes`. -/
theorem wordBytes_pack (a b c d : Nat) (ha : a < 256) (hb : b < 256) (hc : c < 256)
    (hd : d < 256) :
    wordBytes (a * 16777216 + b * 65536 + c * 256 + d) = [a, b, c, d] := by
  simp only [wordBytes, List.cons.injEq, and_true]
  refine ⟨?_, ?_, ?_, ?_⟩ <;> omega

/-- `bytesWord` of four bytes, as a linear expression. -/
theorem bytesWord_four (a b c d : Nat) :
    bytesWord [a, b, c, d] = a * 16777216 + b * 65536 + c * 256 + d := by
  simp only [bytesWord, List.length_cons, List.length_nil]
  norm_num
  omega

/-- Base-85 digit decomposition of a 32-bit word. -/
theorem b85_digits_sum (w : Nat) (h : w < 4294967296) :
    w / 52200625 % 85 * 52200625 + (w / 614125 % 85 * 614125
      + (w / 7225 % 85 * 7225 + (w / 85 % 85 * 85 + (w % 85 * 1 + 0)))) = w := by
  omega

/-- Round trip of one full 4-byte group through 5 digit characters. -/
theorem b85decChunk_enc (w : Nat) (hw : w < 4294967296) :
    b85decChunk (b85encWord w) 4 = .ok (wordBytes w) := by
  have h4 : w / 85 ^ 4 % 85 < 85 := Nat.mod_lt _ (by norm_num)
  have h3 : w / 85 ^ 3 % 85 < 85 := Nat.mod_lt _ (by norm_num)
  have h2 : w / 85 ^ 2 % 85 < 85 := Nat.mod_lt _ (by norm_num)
  have h1 : w / 85 % 85 < 85 := Nat.mod_lt _ (by norm_num)
  have h0 : w % 85 < 85 := Nat.mod_lt _ (by norm_num)
  have hdec := b85decWord_digits _ _ _ _ _ h4 h3 h2 h1 h0
  unfold b85encWord b85decChunk
  rw [show (85 : Nat) ^ 4 = 52200625 by norm_num,
    show (85 : Nat) ^ 3 = 614125 by norm_num,
    show (85 : Nat) ^ 2 = 7225 by norm_num] at hdec ⊢
  rw [hdec]
  have hsum := b85_digits_sum w hw
  rw [hsum]
  show (if w < 2 ^ 32 then Except.ok ((wordBytes w).take 4) else Except.error ())
    = Except.ok (wordBytes w)
  rw [if_pos (by omega)]
  have hlen : (wordBytes w).take 4 = wordBytes w := by
    simp [wordBytes]
  rw [hlen]

/-- Word arithmetic for a 1-byte final group: the padded word built from
the top two digits and three pad digits stays below `2 ^ 32` and its top
byte is the original byte. -/
theorem b85_partial_arith1 (a : Nat) (ha : a < 256) :
    (a * 16777216 / 52200625 % 85) * 52200625
      + ((a * 16777216 / 614125 % 85) * 614125 + (84 * 7225 + (84 * 85 + (84 * 1 + 0))))
      < 4294967296
    ∧ ((a * 16777216 / 52200625 % 85) * 52200625
      + ((a * 16777216 / 614125 % 85) * 614125 + (84 * 7225 + (84 * 85 + (84 * 1 + 0)))))
        / 16777216 % 256 = a := by
  have m2 : a * 16777216 % (52200625 * 85)
      = a * 16777216 % 52200625 + 52200625 * (a * 16777216 / 52200625 % 85) :=
    Nat.mod_mul
  have m1 : a * 16777216 % (614125 * 85)
      = a * 16777216 % 614125 + 614125 * (a * 16777216 / 614125 % 85) :=
    Nat.mod_mul
  rw [show (52200625 * 85 : Nat) = 4437053125 from by norm_num] at m2
  rw [show (614125 * 85 : Nat) = 52200625 from by norm_num] at m1
  have m3 : a * 16777216 % 4437053125 = a * 16777216 := Nat.mod_eq_of_lt (by omega)
  have hv : (a * 16777216 / 52200625 % 85) * 52200625
      + ((a * 16777216 / 614125 % 85) * 614125 + (84 * 7225 + (84 * 85 + (84 * 1 + 0))))
      = 16777216 * a + (614124 - a * 16777216 % 614125) := by
    omega
  constructor
  · omega
  · rw [hv, Nat.mul_add_div (by norm_num), Nat.div_eq_of_lt (by omega)]
    omega

theorem b85_partial_arith2 (a b : Nat) (ha : a < 256) (hb : b < 256) :
    ((a * 16777216 + b * 65536) / 52200625 % 85) * 52200625
      + (((a * 16777216 + b * 65536) / 614125 % 85) * 614125
        + (((a * 16777216 + b * 65536) / 7225 % 85) * 7225 + (84 * 85 + (84 * 1 + 0))))
      < 4294967296
    ∧ (((a * 16777216 + b * 65536) / 52200625 % 85) * 52200625
      + (((a * 16777216 + b * 65536) / 614125 % 85) * 614125
        + (((a * 16777216 + b * 65536) / 7225 % 85) * 7225 + (84 * 85 + (84 * 1 + 0)))))
        / 16777216 % 256 = a
    ∧ (((a * 16777216 + b * 65536) / 52200625 % 85) * 52200625
      + (((a * 16777216 + b * 65536) / 614125 % 85) * 614125
        + (((a * 16777216 + b * 65536) / 7225 % 85) * 7225 + (84 * 85 + (84 * 1 + 0)))))
        / 65536 % 256 = b := by
  have m2 : (a * 16777216 + b * 65536) % (52200625 * 85)
      = (a * 16777216 + b * 65536) % 52200625
        + 52200625 * ((a * 16777216 + b * 65536) / 52200625 % 85) := Nat.mod_mul
  have m1 : (a * 16777216 + b * 65536) % (614125 * 85)
      = (a * 16777216 + b * 65536) % 614125
        + 614125 * ((a * 16777216 + b * 65536) / 614125 % 85) := Nat.mod_mul
  have m0 : (a * 16777216 + b * 65536) % (7225 * 85)
      = (a * 16777216 + b * 65536) % 7225
        + 7225 * ((a * 16777216 + b * 65536) / 7225 % 85) := Nat.mod_mul
  rw [show (52200625 * 85 : Nat) = 4437053125 from by norm_num] at m2
  rw [show (614125 * 85 : Nat) = 52200625 from by norm_num] at m1
  rw [show (7225 * 85 : Nat) = 614125 from by norm_num] at m0
  have m3 : (a * 16777216 + b * 65536) % 4437053125 = a * 16777216 + b * 65536 :=
    Nat.mod_eq_of_lt (by omega)
  have hv : ((a * 16777216 + b * 65536) / 52200625 % 85) * 52200625
      + (((a * 16777216 + b * 65536) / 614125 % 85) * 614125
        + (((a * 16777216 + b * 65536) / 7225 % 85) * 7225 + (84 * 85 + (84 * 1 + 0))))
      = 16777216 * a + (b * 65536 + (7224 - (a * 16777216 + b * 65536) % 7225)) := by
    omega
  have hv2 : ((a * 16777216 + b * 65536) / 52200625 % 85) * 52200625
      + (((a * 16777216 + b * 65536) / 614125 % 85) * 614125
        + (((a * 16777216 + b * 65536) / 7225 % 85) * 7225 + (84 * 85 + (84 * 1 + 0))))
      = 65536 * (a * 256 + b) + (7224 - (a * 16777216 + b * 65536) % 7225) := by
    omega
  refine ⟨by omega, ?_, ?_⟩
  · rw [hv, Nat.mul_add_div (by norm_num), Nat.div_eq_of_lt (by omega)]
    omega
  · rw [hv2, Nat.mul_add_div (by norm_num), Nat.div_eq_of_lt (by omega)]
    omega

theorem b85_partial_arith3 (a b c : Nat) (ha : a < 256) (hb : b < 256) (hc : c < 256) :
    ((a * 16777216 + b * 65536 + c * 256) / 52200625 % 85) * 52200625
      + (((a * 16777216 + b * 65536 + c * 256) / 614125 % 85) * 614125
        + (((a * 16777216 + b * 65536 + c * 256) / 7225 % 85) * 7225
          + (((a * 16777216 + b * 65536 + c * 256) / 85 % 85) * 85 + (84 * 1 + 0))))
      < 4294967296
    ∧ (((a * 16777216 + b * 65536 + c * 256) / 52200625 % 85) * 52200625
      + (((a * 16777216 + b * 65536 + c * 256) / 614125 % 85) * 614125
        + (((a * 16777216 + b * 65536 + c * 256) / 7225 % 85) * 7225
          + (((a * 16777216 + b * 65536 + c * 256) / 85 % 85) * 85 + (84 * 1 + 0)))))
        / 16777216 % 256 = a
    ∧ (((a * 16777216 + b * 65536 + c * 256) / 52200625 % 85) * 52200625
      + (((a * 16777216 + b * 65536 + c * 256) / 614125 % 85) * 614125
        + (((a * 16777216 + b * 65536 + c * 256) / 7225 % 85) * 7225
          + (((a * 16777216 + b * 65536 + c * 256) / 85 % 85) * 85 + (84 * 1 + 0)))))
        / 65536 % 256 = b
    ∧ (((a * 16777216 + b * 65536 + c * 256) / 52200625 % 85) * 52200625
      + (((a * 16777216 + b * 65536 + c * 256) / 614125 % 85) * 614125
        + (((a * 16777216 + b * 65536 + c * 256) / 7225 % 85) * 7225
          + (((a * 16777216 + b * 65536 + c * 256) / 85 % 85) * 85 + (84 * 1 + 0)))))
        / 256 % 256 = c := by
  have m2 : (a * 16777216 + b * 65536 + c * 256) % (52200625 * 85)
      = (a * 16777216 + b * 65536 + c * 256) % 52200625
        + 52200625 * ((a * 16777216 + b * 65536 + c * 256) / 52200625 % 85) := Nat.mod_mul
  have m1 : (a * 16777216 + b * 65536 + c * 256) % (614125 * 85)
      = (a * 16777216 + b * 65536 + c * 256) % 614125
        + 614125 * ((a * 16777216 + b * 65536 + c * 256) / 614125 % 85) := Nat.mod_mul
  have m0 : (a * 16777216 + b * 65536 + c * 256) % (7225 * 85)
      = (a * 16777216 + b * 65536 + c * 256) % 7225
        + 7225 * ((a * 16777216 + b * 65536 + c * 256) / 7225 % 85) := Nat.mod_mul
  have mz : (a * 16777216 + b * 65536 + c * 256) % (85 * 85)
      = (a * 16777216 + b * 65536 + c * 256) % 85
        + 85 * ((a * 16777216 + b * 65536 + c * 256) / 85 % 85) := Nat.mod_mul
  rw [show (52200625 * 85 : Nat) = 4437053125 from by norm_num] at m2
  rw [show (614125 * 85 : Nat) = 52200625 from by norm_num] at m1
  rw [show (7225 * 85 : Nat) = 614125 from by norm_num] at m0
  rw [show (85 * 85 : Nat) = 7225 from by norm_num] at mz
  have m3 : (a * 16777216 + b * 65536 + c * 256) % 4437053125
      = a * 16777216 + b * 65536 + c * 256 := Nat.mod_eq_of_lt (by omega)
  have hv : ((a * 16777216 + b * 65536 + c * 256) / 52200625 % 85) * 52200625
      + (((a * 16777216 + b * 65536 + c * 256) / 614125 % 85) * 614125
        + (((a * 16777216 + b * 65536 + c * 256) / 7225 % 85) * 7225
          + (((a * 16777216 + b * 65536 + c * 256) / 85 % 85) * 85 + (84 * 1 + 0))))
      = 16777216 * a + (b * 65536 + c * 256
          + (84 - (a * 16777216 + b * 65536 + c * 256) % 85)) := by
    omega
  have hv2 : ((a * 16777216 + b * 65536 + c * 256) / 52200625 % 85) * 52200625
      + (((a * 16777216 + b * 65536 + c * 256) / 614125 % 85) * 614125
        + (((a * 16777216 + b * 65536 + c * 256) / 7225 % 85) * 7225
          + (((a * 16777216 + b * 65536 + c * 256) / 85 % 85) * 85 + (84 * 1 + 0))))
      = 65536 * (a * 256 + b) + (c * 256
          + (84 - (a * 16777216 + b * 65536 + c * 256) % 85)) := by
    omega
  have hv3 : ((a * 16777216 + b * 65536 + c * 256) / 52200625 % 85) * 52200625
      + (((a * 16777216 + b * 65536 + c * 256) / 614125 % 85) * 614125
        + (((a * 16777216 + b * 65536 + c * 256) / 7225 % 85) * 7225
          + (((a * 16777216 + b * 65536 + c * 256) / 85 % 85) * 85 + (84 * 1 + 0))))
      = 256 * (a * 65536 + b * 256 + c)
          + (84 - (a * 16777216 + b * 65536 + c * 256) % 85) := by
    omega
  refine ⟨by omega, ?_, ?_, ?_⟩
  · rw [hv, Nat.mul_add_div (by norm_num), Nat.div_eq_of_lt (by omega)]
    omega
  · rw [hv2, Nat.mul_add_div (by norm_num), Nat.div_eq_of_lt (by omega)]
    omega
  · rw [hv3, Nat.mul_add_div (by norm_num), Nat.div_eq_of_lt (by omega)]
    omega

/-- Round trip of a 1-byte final group (2 characters, 3 pad digits). -/
theorem b85_roundtrip1 (a : Nat) (ha : a < 256) :
    b85decode (b85encode [a]) = .ok [a] := by
  have hW : bytesWord [a, 0, 0, 0] = a * 16777216 := by
    simp only [bytesWord, List.length_cons, List.length_nil]
    norm_num
  have henc : b85encode [a]
      = [b85char (a * 16777216 / 52200625 % 85),
         b85char (a * 16777216 / 614125 % 85)] := by
    show (b85encWord (bytesWord [a, 0, 0, 0])).take 2 = _
    rw [hW]
    norm_num [b85encWord]
  rw [henc]
  show b85decChunk [b85char (a * 16777216 / 52200625 % 85),
      b85char (a * 16777216 / 614125 % 85), '~', '~', '~'] 1 = .ok [a]
  rw [← b85char_tilde]
  have h4 : a * 16777216 / 52200625 % 85 < 85 := Nat.mod_lt _ (by norm_num)
  have h3 : a * 16777216 / 614125 % 85 < 85 := Nat.mod_lt _ (by norm_num)
  have hdec := b85decWord_digits _ _ 84 84 84 h4 h3 (by norm_num) (by norm_num)
    (by norm_num)
  unfold b85decChunk
  rw [hdec]
  obtain ⟨hlt, hdig⟩ := b85_partial_arith1 a ha
  show (if _ < 2 ^ 32 then _ else _) = _
  rw [if_pos (by omega)]
  have htake : ∀ v : Nat, (wordBytes v).take 1 = [v / 2 ^ 24 % 256] := fun v => rfl
  rw [htake]
  simp only [Except.ok.injEq, List.cons.injEq, and_true]
  rw [show (2 : Nat) ^ 24 = 16777216 from by norm_num]
  exact hdig

/-- Round trip of a 2-byte final group (3 characters, 2 pad digits). -/
theorem b85_roundtrip2 (a b : Nat) (ha : a < 256) (hb : b < 256) :
    b85decode (b85encode [a, b]) = .ok [a, b] := by
  have hW : bytesWord [a, b, 0, 0] = a * 16777216 + b * 65536 := by
    simp only [bytesWord, List.length_cons, List.length_nil]
    norm_num
  have henc : b85encode [a, b]
      = [b85char ((a * 16777216 + b * 65536) / 52200625 % 85),
         b85char ((a * 16777216 + b * 65536) / 614125 % 85),
         b85char ((a * 16777216 + b * 65536) / 7225 % 85)] := by
    show (b85encWord (bytesWord [a, b, 0, 0])).take 3 = _
    rw [hW]
    norm_num [b85encWord]
  rw [henc]
  show b85decChunk [b85char ((a * 16777216 + b * 65536) / 52200625 % 85),
      b85char ((a * 16777216 + b * 65536) / 614125 % 85),
      b85char ((a * 16777216 + b * 65536) / 7225 % 85), '~', '~'] 2 = .ok [a, b]
  rw [← b85char_tilde]
  have h4 : (a * 16777216 + b * 65536) / 52200625 % 85 < 85 := Nat.mod_lt _ (by norm_num)
  have h3 : (a * 16777216 + b * 65536) / 614125 % 85 < 85 := Nat.mod_lt _ (by norm_num)
  have h2 : (a * 16777216 + b * 65536) / 7225 % 85 < 85 := Nat.mod_lt _ (by norm_num)
  have hdec := b85decWord_digits _ _ _ 84 84 h4 h3 h2 (by norm_num) (by norm_num)
  unfold b85decChunk
  rw [hdec]
  obtain ⟨hlt, hdig1, hdig2⟩ := b85_partial_arith2 a b ha hb
  show (if _ < 2 ^ 32 then _ else _) = _
  rw [if_pos (by omega)]
  have htake : ∀ v : Nat, (wordBytes v).take 2
      = [v / 2 ^ 24 % 256, v / 2 ^ 16 % 256] := fun v => rfl
  rw [htake]
  simp only [Except.ok.injEq, List.cons.injEq, and_true]
  rw [show (2 : Nat) ^ 24 = 16777216 from by norm_num,
    show (2 : Nat) ^ 16 = 65536 from by norm_num]
  exact ⟨hdig1, hdig2⟩

/-- Round trip of a 3-byte final group (4 characters, 1 pad digit). -/
theorem b85_roundtrip3 (a b c : Nat) (ha : a < 256) (hb : b < 256) (hc : c < 256) :
    b85decode (b85encode [a, b, c]) = .ok [a, b, c] := by
  have hW : bytesWord [a, b, c, 0] = a * 16777216 + b * 65536 + c * 256 := by
    simp only [bytesWord, List.length_cons, List.length_nil]
    norm_num
    omega
  have henc : b85encode [a, b, c]
      = [b85char ((a * 16777216 + b * 65536 + c * 256) / 52200625 % 85),
         b85char ((a * 16777216 + b * 65536 + c * 256) / 614125 % 85),
         b85char ((a * 16777216 + b * 65536 + c * 256) / 7225 % 85),
         b85char ((a * 16777216 + b * 65536 + c * 256) / 85 % 85)] := by
    show (b85encWord (bytesWord [a, b, c, 0])).take 4 = _
    rw [hW]
    norm_num [b85encWord]
  rw [henc]
  show b85decChunk [b85char ((a * 16777216 + b * 65536 + c * 256) / 52200625 % 85),
      b85char ((a * 16777216 + b * 65536 + c * 256) / 614125 % 85),
      b85char ((a * 16777216 + b * 65536 + c * 256) / 7225 % 85),
      b85char ((a * 16777216 + b * 65536 + c * 256) / 85 % 85), '~'] 3 = .ok [a, b, c]
  rw [← b85char_tilde]
  have h4 : (a * 16777216 + b * 65536 + c * 256) / 52200625 % 85 < 85 :=
    Nat.mod_lt _ (by norm_num)
  have h3 : (a * 16777216 + b * 65536 + c * 256) / 614125 % 85 < 85 :=
    Nat.mod_lt _ (by norm_num)
  have h2 : (a * 16777216 + b * 65536 + c * 256) / 7225 % 85 < 85 :=
    Nat.mod_lt _ (by norm_num)
  have h1 : (a * 16777216 + b * 65536 + c * 256) / 85 % 85 < 85 :=
    Nat.mod_lt _ (by norm_num)
  have hdec := b85decWord_digits _ _ _ _ 84 h4 h3 h2 h1 (by norm_num)
  unfold b85decChunk
  rw [hdec]
  obtain ⟨hlt, hdig1, hdig2, hdig3⟩ := b85_partial_arith3 a b c ha hb hc
  show (if _ < 2 ^ 32 then _ else _) = _
  rw [if_pos (by omega)]
  have htake : ∀ v : Nat, (wordBytes v).take 3
      = [v / 2 ^ 24 % 256, v / 2 ^ 16 % 256, v / 2 ^ 8 % 256] := fun v => rfl
  rw [htake]
  simp only [Except.ok.injEq, List.cons.injEq, and_true]
  rw [show (2 : Nat) ^ 24 = 16777216 from by norm_num,
    show (2 : Nat) ^ 16 = 65536 from by norm_num,
    show (2 : Nat) ^ 8 = 256 from by norm_num]
  exact ⟨hdig1, hdig2, hdig3⟩

/-- Round trip of `base64.b85decode` after `base64.b85encode` on any byte
sequence (every element below 256), matching CPython's behaviour. -/
theorem b85decode_b85encode (bs : List Nat) (h : ∀ x ∈ bs, x < 256) :
    b85decode (b85encode bs) = .ok bs := by
  suffices H : ∀ n (bs : List Nat), bs.length ≤ n → (∀ x ∈ bs, x < 256) →
      b85decode (b85encode bs) = .ok bs from H bs.length bs le_rfl h
  intro n
  induction n with
  | zero =>
    intro bs hlen _
    have : bs = [] := by
      cases bs with
      | nil => rfl
      | cons a tl => simp at hlen
    subst this
    rfl
  | succ n ih =>
    intro bs hlen hb
    rcases bs with _ | ⟨a, _ | ⟨b, _ | ⟨c, _ | ⟨d, rest⟩⟩⟩⟩
    · rfl
    · exact b85_roundtrip1 a (hb a (by simp))
    · exact b85_roundtrip2 a b (hb a (by simp)) (hb b (by simp))
    · exact b85_roundtrip3 a b c (hb a (by simp)) (hb b (by simp)) (hb c (by simp))
    · have ha := hb a (by simp)
      have hbb := hb b (by simp)
      have hcc := hb c (by simp)
      have hdd := hb d (by simp)
      have hrest : ∀ x ∈ rest, x < 256 := fun x hx => hb x (by simp [hx])
      have hlen' : rest.length ≤ n := by
        simp only [List.length_cons] at hlen
        omega
      have hrec := ih rest hlen' hrest
      have hWlt : bytesWord [a, b, c, d] < 4294967296 := by
        rw [bytesWord_four]
        omega
      have hchunk := b85decChunk_enc (bytesWord [a, b, c, d]) hWlt
      show (match b85decChunk (b85encWord (bytesWord [a, b, c, d])) 4 with
        | Except.error e => Except.error e
        | Except.ok bs2 =>
          match b85decode (b85encode rest) with
          | Except.ok bs3 => Except.ok (bs2 ++ bs3)
          | Except.error e => Except.error e) = Except.ok (a :: b :: c :: d :: rest)
      rw [hchunk, hrec]
      rw [bytesWord_four, wordBytes_pack a b c d ha hbb hcc hdd]
      rfl

/-- The declared-field entries of a dump are all dropped by the
extension-field filter. -/
theorem filter_fixed_part (v1 v2 v3 v4 v5 v6 : JVal) :
    ([("created", v1), ("author", v2), ("type", v3), ("pageIndex", v4),
      ("db_id", v5), ("contents", v6)] : List (String × JVal)).filter
      (fun kv => !(fixedKeys.contains kv.1)) = [] := rfl

/-- Validating a dumped annotation recovers the declared fields exactly
and collects the non-declared entries of the dump as extensions. -/
theorem annoFromDict_modelDump_raw (a : Anno) :
    annoFromDict a.modelDump
      = .ok { a with
          extra := a.modelDump.filter (fun kv => !(fixedKeys.contains kv.1)) } := by
  obtain ⟨cr, au, ty, pi, db, ct, ex⟩ := a
  cases db <;> cases ct <;> rfl

/-- Pydantic round trip at the entity level: for a well-formed annotation
(extension names distinct and disjoint from the declared field names),
`Annotation(**a.model_dump())` rebuilds `a` exactly — no declared field
and no extension field is dropped or altered. -/
theorem annoFromDict_modelDump (a : Anno) (hwf : a.wf) :
    annoFromDict a.modelDump = .ok a := by
  obtain ⟨hnodup, hdisj⟩ := hwf
  have hfilter : a.modelDump.filter (fun kv => !(fixedKeys.contains kv.1)) = a.extra := by
    unfold Anno.modelDump
    rw [List.filter_append, filter_fixed_part, List.nil_append]
    refine List.filter_eq_self.mpr (fun kv hkv => ?_)
    have hmem := hdisj kv.1 (List.mem_map_of_mem Prod.fst hkv)
    simp only [Bool.not_eq_eq_eq_not, Bool.not_false]
    simp [hmem]
  rw [annoFromDict_modelDump_raw, hfilter]

/-- C1: serializer round trip.  For either registered serializer (the
base85-gzip-JSON codec `85gj` and the indented-JSON codec `ji2`) and any
well-formed annotation — extension fields included — deserializing the
string produced by serializing the annotation's dumped field dictionary
returns that field dictionary unchanged, and validating the dictionary
rebuilds the annotation exactly, so no field is dropped.  The behaviour of
the Python standard library codecs on the values involved (`json.loads`
after `json.dumps`, UTF-8 decode after encode, `gzip.decompress` after
`gzip.compress`, and gzip output being bytes) is taken as hypotheses;
`base64.b85decode` after `base64.b85encode` is the proved
`b85decode_b85encode`. -/
theorem c1_serializer_roundtrip (c : Codecs) (a : Anno) (hwf : a.wf)
    (S : AnnoSerializer) (hS : S ∈ registeredSerializers c)
    (h1 : c.loads (c.dumps2 (.obj a.modelDump)) = .ok (.obj a.modelDump))
    (h2 : c.loads (c.dumps (.obj a.modelDump)) = .ok (.obj a.modelDump))
    (h3 : c.strDecode (c.strEncode (c.dumps (.obj a.modelDump)))
        = some (c.dumps (.obj a.modelDump)))
    (h4 : c.gzipDecompress (c.gzipCompress (c.strEncode (c.dumps (.obj a.modelDump))))
        = .ok (c.strEncode (c.dumps (.obj a.modelDump))))
    (h5 : ∀ x ∈ c.gzipCompress (c.strEncode (c.dumps (.obj a.modelDump))), x < 256) :
    S.deserialize (S.serialize (.obj a.modelDump)) = .ok (.obj a.modelDump)
    ∧ annoFromDict a.modelDump = .ok a := by
  refine ⟨?_, annoFromDict_modelDump a hwf⟩
  simp only [registeredSerializers, List.mem_cons, List.mem_singleton,
    List.not_mem_nil, or_false] at hS
  rcases hS with hS | hS
  · subst hS
    have hb85 := b85decode_b85encode _ h5
    simp only [base85GzipJSONSerializer, bind, Except.bind, hb85, h4, h3, h2]
  · subst hS
    exact h1

/-- C1 witness: both registered serializers applied to `wAnno` (an
annotation carrying the extension fields `id` and `custom`), over a codec
instantiation satisfying the library hypotheses at `wAnno`'s dump. -/
theorem c1_witness :
    wAnno.wf
    ∧ (jsonSerializer wCodecs).deserialize
        ((jsonSerializer wCodecs).serialize (.obj wAnno.modelDump))
        = .ok (.obj wAnno.modelDump)
    ∧ (base85GzipJSONSerializer wCodecs).deserialize
        ((base85GzipJSONSerializer wCodecs).serialize (.obj wAnno.modelDump))
        = .ok (.obj wAnno.modelDump)
    ∧ annoFromDict wAnno.modelDump = .ok wAnno := by
  have hwf : wAnno.wf := by
    constructor
    · decide
    · decide
  have hj := c1_serializer_roundtrip wCodecs wAnno hwf (jsonSerializer wCodecs)
    (List.mem_cons_of_mem _ (List.mem_cons_self _ _)) rfl rfl rfl rfl
    (by intro x hx; simp [wCodecs] at hx)
  have hb := c1_serializer_roundtrip wCodecs wAnno hwf (base85GzipJSONSerializer wCodecs)
    (List.mem_cons_self _ _) rfl rfl rfl rfl
    (by intro x hx; simp [wCodecs] at hx)
  exact ⟨hwf, hj.1, hb.1, hj.2⟩

/-- C7 counterexample: on the relational backend, listing document 1 of
`wDirtyDb` (well-formed row 1, malformed row 2, well-formed row 3) aborts
at row 2 with the validation error: only the annotation of row 1 is
yielded and row 3's is lost — the claim says malformed records are
skipped and the remaining records still yielded, for both backends. -/
theorem c7_counterexample :
    dbGetAnnos wDirtyDb 1 none
      = ([{ wDbAnno with db_id := some 1 }], some .validationError) := by
  rfl

/-- C7 (amended): the note-based backend skips a record that fails to
decode and keeps yielding the following records, but the relational
backend has no per-record exception handling: the first record that fails
validation aborts the listing with its error, and the records after it
are not yielded. -/
theorem c7_malformed_record_handling (c : Codecs) (nst : NotesState) (doc : Nat)
    (n1 m n2 : PNote) (a1 a2 : Anno) (e : AppErr)
    (hnotes : nst.docNotes doc = [n1, m, n2])
    (h1 : noteContentToAnno c n1.note = .ok (some a1))
    (hm : noteContentToAnno c m.note = .error e)
    (h2 : noteContentToAnno c n2.note = .ok (some a2))
    (dst : DbState) (docD : Nat) (r1 rb r2 : DbRow) (b1 : Anno) (e2 : AppErr)
    (hrows : dst.rows = [r1, rb, r2])
    (hd1 : r1.doc_id = docD) (hdb : rb.doc_id = docD) (hd2 : r2.doc_id = docD)
    (hg1 : annoFromDict r1.anno_obj = .ok b1)
    (hgb : annoFromDict rb.anno_obj = .error e2) :
    notesGetAnnos c nst doc none
      = [{ a1 with db_id := some n1.id }, { a2 with db_id := some n2.id }]
    ∧ dbGetAnnos dst docD none = ([{ b1 with db_id := some r1.id }], some e2) := by
  constructor
  · simp [notesGetAnnos, hnotes, h1, hm, h2]
  · simp [dbGetAnnos, hrows, hd1, hdb, hd2, dbGetAnnosGo, hg1, hgb]

/-- C7 witness: the note-based store `wNotesState` (decodable note 1,
malformed note 2, decodable note 3) yields the two decodable annotations;
the relational store `wDirtyDb` aborts at its malformed row. -/
theorem c7_witness :
    notesGetAnnos wCodecs wNotesState 1 none
      = [{ wAnno with db_id := some 1 }, { wAnno with db_id := some 3 }]
    ∧ dbGetAnnos wDirtyDb 1 none
      = ([{ wDbAnno with db_id := some 1 }], some .validationError) := by
  exact c7_malformed_record_handling wCodecs wNotesState 1
    { id := 1, note := wNoteGood } { id := 2, note := wNoteBad }
    { id := 3, note := wNoteGood } wAnno wAnno .indexError
    rfl rfl rfl rfl
    wDirtyDb 1
    (wDirtyDb.rows.get ⟨0, by decide⟩) (wDirtyDb.rows.get ⟨1, by decide⟩)
    (wDirtyDb.rows.get ⟨2, by decide⟩) wDbAnno .validationError
    rfl rfl rfl rfl rfl rfl

/-- C6 witness: a store with one row (id 9, doc 1): deleting id 9 reports
true and removes it, deleting id 8 reports false; the notes backend
reports true even on an empty store. -/
theorem c6_witness :
    (notesDeleteAnnoById { notes := [], nextId := 0 } 2 7).2 = true
    ∧ (dbDeleteAnnoById wDbState 1 9).2 = .ok true
    ∧ (dbDeleteAnnoById wDbState 1 8).2 = .ok false := by
  have h9 := c6_delete_by_id_contract { notes := [], nextId := 0 } wDbState 2 7 1 9
    (by decide)
  have h8 := c6_delete_by_id_contract { notes := [], nextId := 0 } wDbState 2 7 1 8
    (by decide)
  refine ⟨h9.1, ?_, ?_⟩
  · rw [h9.2.1]
    have hd : (decide (∃ r ∈ wDbState.rows, r.id = 9 ∧ r.doc_id = 1)) = true := by
      decide
    rw [hd]
  · rw [h8.2.1]
    have hd : (decide (∃ r ∈ wDbState.rows, r.id = 8 ∧ r.doc_id = 1)) = false := by
      decide
    rw [hd]

end Plannotations
